import Mathlib

/-!
# Exchange receiver (dbms/src/Flash/Mpp/ExchangeReceiver.h)

A shallow embedding of the `DB::ExchangeReceiver` class: its shared buffer
(batch queue, live-call counter, error latch), the packet decoder and the pull
interface.  Every member function is a function on the receiver state; each call
is one atomic step (the source runs the bodies under `rw_mu`).  Externally
visible actions that are not part of the data (requests issued, threads started,
condition-variable notifications) are appended to a history kept in the state.
-/

namespace tipb

/-- Column type of the receiver descriptor (`tipb::FieldType`). -/
structure FieldType where
  tp : Int
  flag : Nat
  flen : Int
  decimal : Int
  charset : String
deriving DecidableEq, Repr

/-- Receiver descriptor (`tipb::ExchangeReceiver`): one serialized task meta per
remote sender and the output column types. -/
structure ExchangeReceiver where
  encoded_task_meta : List String
  field_types : List FieldType
deriving DecidableEq, Repr

/-- Wire encoding tag of a response (`tipb::EncodeType`); `other` stands for any
value that is none of the three enumerators the source handles. -/
inductive EncodeType where
  | TypeDefault
  | TypeChunk
  | TypeCHBlock
  | other (raw : Int)
deriving DecidableEq, Repr

/-- One encoded chunk of a response (`tipb::Chunk`). -/
structure Chunk where
  rows_data : List Nat
deriving DecidableEq, Repr

/-- The parts of `tipb::SelectResponse` that `decodePacket` reads. -/
structure SelectResponse where
  encode_type : EncodeType
  chunks : List Chunk
deriving DecidableEq, Repr

end tipb

namespace mpp

/-- Identity of the receiving task (`mpp::TaskMeta`). -/
structure TaskMeta where
  start_ts : Nat
  task_id : Int
deriving DecidableEq, Repr

/-- A data packet (`mpp::MPPDataPacket`).  Its `data` bytes are only ever read
through `resp.ParseFromString(p.data())`, whose return value the source
ignores, so the packet is represented by the response it parses to. -/
structure MPPDataPacket where
  data : tipb.SelectResponse
deriving DecidableEq, Repr

end mpp

namespace DB

/-- Column description of the output schema (`ColumnInfo`). -/
structure ColumnInfo where
  tp : Int
  flag : Nat
  flen : Int
  decimal : Int
deriving DecidableEq, Repr

/-- Type `DAGSchema`: ordered `(name, column info)` pairs. -/
abbrev DAGSchema := List (String × ColumnInfo)

/-- A named column with its cell values. -/
structure ColumnWithTypeAndName where
  name : String
  column : List Int
deriving DecidableEq, Repr

/-- Type `Block`: an ordered collection of columns.  The default-constructed block
`{}` has no column. -/
structure Block where
  data : List ColumnWithTypeAndName
deriving DecidableEq, Repr

/-- The default-constructed block, `Block()`, also what `return {}` yields. -/
def Block.empty : Block := ⟨[]⟩

/-- Error codes carried by `Exception`. -/
inductive ErrorCode where
  | OK
  | LOGICAL_ERROR
  | CANNOT_CONVERT_TYPE
  | other (raw : Int)
deriving DecidableEq, Repr

/-- Type `DB::Exception`: message and code. -/
structure Exception where
  message : String
  code : ErrorCode
deriving DecidableEq, Repr

/-- Default-constructed `Exception` (the initial value of the member `err`). -/
def Exception.default : Exception := ⟨"", ErrorCode.OK⟩

/-- Entry point of a worker thread; the source only ever starts
`&ExchangeReceiver::proceedAsyncReq`. -/
inductive ThreadEntry where
  | proceedAsyncReq
deriving DecidableEq, Repr

/-- Modelled from the spec: the protocol states of a Remote Call (section 4.2);
the class `ExchangeCall` is only forward-declared in the header. -/
inductive CallState where
  | Unstarted
  | RequestSent
  | AwaitingData
  | Decoding
  | Closing
  | Closed
  | Errored
deriving DecidableEq, Repr

/-- Modelled from the spec: a Remote Call, one per sender task, with "identity
of the target task" and "current protocol state" (section 3); the class
`ExchangeCall` is only forward-declared in the header. -/
structure ExchangeCall where
  task : Nat
  state : CallState
deriving DecidableEq, Repr

/-- The asynchronous completion queue (`grpc::CompletionQueue`). -/
structure CompletionQueue where
  is_shutdown : Bool
deriving DecidableEq, Repr

/-- Externally visible actions, in the order they happen. -/
inductive Effect where
  /-- Marks that `init` invoked `sendAsyncReq()`. -/
  | sendAsyncReq
  /-- The first asynchronous request of sender task `task` was issued. -/
  | asyncReq (task : Nat)
  /-- A thread was started by `workers.emplace_back(std::thread(...))`. -/
  | threadStart (entry : ThreadEntry)
  /-- One call of `cv.notify_one()`. -/
  | notify_one
  /-- A worker thread was joined by `worker.join()` in the destructor. -/
  | join (entry : ThreadEntry)
  /-- The Remote Calls were released by `exchangeCalls.clear()`. -/
  | clearCalls
  /-- The completion queue was shut down by `grpc_com_queue.Shutdown()`. -/
  | shutdown
  /-- The member `grpc_com_queue` was destroyed, which happens after the
  destructor body. -/
  | destroyQueue
deriving DecidableEq, Repr

/-- The members of `class ExchangeReceiver` that the member functions in the
header read or write (`context`, `timeout` and `log` are never read there),
plus the history of external actions. -/
structure ExchangeReceiver where
  pb_exchange_receiver : tipb.ExchangeReceiver
  task_meta : mpp.TaskMeta
  workers : List ThreadEntry
  grpc_com_queue : CompletionQueue
  schema : DAGSchema
  block_buffer : List Block
  live_connections : Int
  inited : Bool
  meet_error : Bool
  err : Exception
  exchangeCalls : List ExchangeCall
  history : List Effect
deriving DecidableEq, Repr

/-- The three chunk decoders (`CHBlockChunkCodec().decode`,
`ArrowChunkCodec().decode`, `DefaultChunkCodec().decode`).  Their code is
outside the header; they are taken as parameters, pure functions of the chunk
and the schema. -/
structure ChunkCodecs where
  CHBlockChunkCodec : tipb.Chunk → DAGSchema → Block
  ArrowChunkCodec : tipb.Chunk → DAGSchema → Block
  DefaultChunkCodec : tipb.Chunk → DAGSchema → Block

/-- The constructor: members as in the initializer list, the schema built by
the loop over `exc.field_types`.  `fieldTypeToColumnInfo` is defined outside
the header and taken as a parameter. -/
def ExchangeReceiver.new (fieldTypeToColumnInfo : tipb.FieldType → ColumnInfo)
    (exc : tipb.ExchangeReceiver) (task_meta_ : mpp.TaskMeta) : ExchangeReceiver :=
  { pb_exchange_receiver := exc
    task_meta := task_meta_
    workers := []
    grpc_com_queue := ⟨false⟩
    schema := exc.field_types.enum.map
      (fun p => ("exchange_receiver_" ++ toString p.1, fieldTypeToColumnInfo p.2))
    block_buffer := []
    live_connections := 0
    inited := false
    meet_error := false
    err := Exception.default
    exchangeCalls := []
    history := [] }

/-- Accessor `getOutputSchema() const`. -/
def ExchangeReceiver.getOutputSchema (r : ExchangeReceiver) : DAGSchema := r.schema

/-- Modelled from the spec: `sendAsyncReq` is declared in the header but its
body is missing.  Section 4.1: on the first initialization the receiver
"constructs one Remote Call per descriptor entry and issues its first
asynchronous request"; section 2: the live-call counter is the "count of
still-open remote calls", so each constructed call is counted. -/
def ExchangeReceiver.sendAsyncReq (r : ExchangeReceiver) : ExchangeReceiver :=
  let tasks := List.range r.pb_exchange_receiver.encoded_task_meta.length
  { r with
    exchangeCalls := r.exchangeCalls ++ tasks.map (fun i => ⟨i, CallState.RequestSent⟩)
    live_connections := r.live_connections + tasks.length
    history := r.history ++ tasks.map Effect.asyncReq }

/-- Member function `init()`. -/
def ExchangeReceiver.init (r : ExchangeReceiver) : ExchangeReceiver :=
  if !r.inited then
    let r1 := ExchangeReceiver.sendAsyncReq
      { r with history := r.history ++ [Effect.sendAsyncReq] }
    { r1 with
      workers := r1.workers ++ [ThreadEntry.proceedAsyncReq]
      history := r1.history ++ [Effect.threadStart ThreadEntry.proceedAsyncReq]
      inited := true }
  else r

/-- The switch of `decodePacket`: the decoder selected by the encoding tag, or
the exception of the `default:` branch. -/
def decodeChunk (codecs : ChunkCodecs) (encode_type : tipb.EncodeType)
    (chunk : tipb.Chunk) (schema : DAGSchema) : Except Exception Block :=
  match encode_type with
  | tipb.EncodeType.TypeCHBlock => Except.ok (codecs.CHBlockChunkCodec chunk schema)
  | tipb.EncodeType.TypeChunk => Except.ok (codecs.ArrowChunkCodec chunk schema)
  | tipb.EncodeType.TypeDefault => Except.ok (codecs.DefaultChunkCodec chunk schema)
  | tipb.EncodeType.other _ =>
      Except.error ⟨"Unsupported encode type", ErrorCode.LOGICAL_ERROR⟩

/-- The `for` loop of `decodePacket` over the chunks still to be handled.  A
thrown exception ends the loop; what was pushed before stays pushed. -/
def decodePacketLoop (codecs : ChunkCodecs) (encode_type : tipb.EncodeType) :
    List tipb.Chunk → ExchangeReceiver → Except Exception Unit × ExchangeReceiver
  | [], r => (Except.ok (), r)
  | chunk :: rest, r =>
    match decodeChunk codecs encode_type chunk r.schema with
    | Except.error e => (Except.error e, r)
    | Except.ok block =>
      decodePacketLoop codecs encode_type rest
        { r with
          block_buffer := r.block_buffer ++ [block]
          history := r.history ++ [Effect.notify_one] }

/-- Member function `decodePacket(p)`: the outcome (normal return or exception) and the state
the call leaves behind. -/
def ExchangeReceiver.decodePacket (codecs : ChunkCodecs) (r : ExchangeReceiver)
    (p : mpp.MPPDataPacket) : Except Exception Unit × ExchangeReceiver :=
  let resp := p.data
  let chunks_size := resp.chunks.length
  if chunks_size == 0 then (Except.ok (), r)
  else decodePacketLoop codecs resp.encode_type resp.chunks r

/-- How a `nextBlock()` call ends in a given state: it returns a block, throws,
or stays blocked in `cv.wait` because the wait predicate is false. -/
inductive NextBlockResult where
  | returned (blk : Block)
  | thrown (e : Exception)
  | waiting
deriving DecidableEq, Repr

/-- The predicate of `cv.wait` in `nextBlock`. -/
def ExchangeReceiver.waitPredicate (r : ExchangeReceiver) : Bool :=
  decide (r.block_buffer.length > 0) || r.live_connections == 0 || r.meet_error

/-- Member function `nextBlock()`.  With a false wait predicate the call does not return from
this state (`waiting`); the state then only carries the effect of `init`. -/
def ExchangeReceiver.nextBlock (r : ExchangeReceiver) :
    NextBlockResult × ExchangeReceiver :=
  let r1 := if !r.inited then r.init else r
  if !r1.waitPredicate then (NextBlockResult.waiting, r1)
  else if r1.meet_error then (NextBlockResult.thrown r1.err, r1)
  else
    match r1.block_buffer with
    | [] => (NextBlockResult.returned Block.empty, r1)
    | blk :: rest => (NextBlockResult.returned blk, { r1 with block_buffer := rest })

/-- The results of `n` successive `nextBlock()` calls and the final state. -/
def ExchangeReceiver.nextBlocks :
    Nat → ExchangeReceiver → List NextBlockResult × ExchangeReceiver
  | 0, r => ([], r)
  | n + 1, r =>
    let step := r.nextBlock
    let more := ExchangeReceiver.nextBlocks n step.2
    (step.1 :: more.1, more.2)

/-- Runs `decodePacket` on a sequence of packets in order, stopping at the
first exception. -/
def ExchangeReceiver.decodePackets (codecs : ChunkCodecs) :
    List mpp.MPPDataPacket → ExchangeReceiver → Except Exception Unit × ExchangeReceiver
  | [], r => (Except.ok (), r)
  | p :: ps, r =>
    match r.decodePacket codecs p with
    | (Except.error e, r1) => (Except.error e, r1)
    | (Except.ok _, r1) => ExchangeReceiver.decodePackets codecs ps r1

/-- The encoding tags with a decoder: `TypeCHBlock`, `TypeChunk`, `TypeDefault`. -/
def supportedEncodeType : tipb.EncodeType → Bool
  | tipb.EncodeType.other _ => false
  | _ => true

/-- Specification side of decoding: the batches a packet stands for, one per
chunk in chunk order, each decoded by the decoder matching the tag. -/
def decodedBatches (codecs : ChunkCodecs) (schema : DAGSchema)
    (p : mpp.MPPDataPacket) : List Block :=
  match p.data.encode_type with
  | tipb.EncodeType.TypeCHBlock => p.data.chunks.map (fun ch => codecs.CHBlockChunkCodec ch schema)
  | tipb.EncodeType.TypeChunk => p.data.chunks.map (fun ch => codecs.ArrowChunkCodec ch schema)
  | tipb.EncodeType.TypeDefault => p.data.chunks.map (fun ch => codecs.DefaultChunkCodec ch schema)
  | tipb.EncodeType.other _ => []

/-- Number of `cv.notify_one()` calls recorded so far. -/
def ExchangeReceiver.signals (r : ExchangeReceiver) : Nat :=
  r.history.count Effect.notify_one

/-- Number of multiplexer threads started so far. -/
def ExchangeReceiver.threadsStarted (r : ExchangeReceiver) : Nat :=
  r.history.count (Effect.threadStart ThreadEntry.proceedAsyncReq)

/-- Number of `sendAsyncReq()` invocations so far. -/
def ExchangeReceiver.sendAsyncReqCalls (r : ExchangeReceiver) : Nat :=
  r.history.count Effect.sendAsyncReq

/-- Number of initial requests issued so far for sender task `i`. -/
def ExchangeReceiver.requestsIssued (r : ExchangeReceiver) (i : Nat) : Nat :=
  r.history.count (Effect.asyncReq i)

/-- The receiver operations visible in the header, as steps on the state. -/
inductive Operation where
  | init
  | nextBlock
  | decodePacket (p : mpp.MPPDataPacket)
  | getOutputSchema
deriving DecidableEq, Repr

/-- The state an operation leaves behind, whether it returns or throws;
`getOutputSchema` is `const` and leaves the state as it is. -/
def Operation.apply (codecs : ChunkCodecs) (op : Operation) (r : ExchangeReceiver) :
    ExchangeReceiver :=
  match op with
  | Operation.init => r.init
  | Operation.nextBlock => r.nextBlock.2
  | Operation.decodePacket p => (r.decodePacket codecs p).2
  | Operation.getOutputSchema => r

/-- The destructor `~ExchangeReceiver()`: the three statements of its body in
source order, then the destruction of the member `grpc_com_queue` that follows
every destructor body.  The function records the order of the actions; how long
a `join` blocks is not part of it. -/
def ExchangeReceiver.destructor (r : ExchangeReceiver) : ExchangeReceiver :=
  let r1 := { r with history := r.history ++ r.workers.map Effect.join }
  let r2 := { r1 with exchangeCalls := [], history := r1.history ++ [Effect.clearCalls] }
  let r3 := { r2 with grpc_com_queue := ⟨true⟩, history := r2.history ++ [Effect.shutdown] }
  { r3 with history := r3.history ++ [Effect.destroyQueue] }

/-- The actions a destructor run appends to the history. -/
def ExchangeReceiver.destructorActions (r : ExchangeReceiver) : List Effect :=
  r.destructor.history.drop r.history.length

/-- Modelled from the spec: the effect on the shared buffer of a Remote Call
entering `Errored`; the multiplexer code (`proceedAsyncReq`, `ExchangeCall`) is
not in the header.  Section 4.2: the transition "sets the Shared Buffer's error
latch (first error wins — subsequent errors from other calls are discarded),
decrements the live-call counter, and signals the condition". -/
def ExchangeReceiver.callErrored (r : ExchangeReceiver) (e : Exception) :
    ExchangeReceiver :=
  { r with
    meet_error := true
    err := if r.meet_error then r.err else e
    live_connections := r.live_connections - 1
    history := r.history ++ [Effect.notify_one] }

/-! ## Conversions (dbms/src/Functions/FunctionsTiDBConversion.h) -/

/-- A string column (`ColumnString`): the rows lie one after the other in
`chars`, each followed by a zero byte, and `offsets[i]` is the position right
after the terminator of row `i`.  The column has `offsets.size()` rows. -/
structure ColumnString where
  chars : List Nat
  offsets : List Nat
deriving DecidableEq, Repr

/-- Row count `column->size()` of a string column. -/
def ColumnString.size (c : ColumnString) : Nat := c.offsets.length

/-- The bytes of row `i`, without the terminator. -/
def ColumnString.row (c : ColumnString) (i : Nat) : List Nat :=
  let start := if i = 0 then 0 else c.offsets.getD (i - 1) 0
  (c.chars.drop start).take (c.offsets.getD i 0 - start - 1)

/-- The string column holding the given rows. -/
def ColumnString.ofRows (rows : List (List Nat)) : ColumnString :=
  rows.foldl
    (fun c row => ⟨c.chars ++ row ++ [0], c.offsets ++ [c.chars.length + row.length + 1]⟩)
    ⟨[], []⟩

/-- Reduction of an integer to `size_t` (64 bits, wrapping). -/
def toSizeT (x : Int) : Nat := (x % 2 ^ 64).toNat

/-- Element assignment `xs[i] = v` on an array: defined only inside the current
size, `none` for a store past the end. -/
def arrayStore (xs : List Nat) (i v : Nat) : Option (List Nat) :=
  if i < xs.length then some (xs.set i v) else none

/-- The loop of `charLengthToByteLengthFromUTF8`, with `n` characters still to
skip and `ret` bytes skipped so far. -/
def charLengthToByteLengthLoop (data : List Nat) (length : Nat) : Nat → Nat → Nat
  | 0, ret => ret
  | n + 1, ret =>
    if ret < length then
      let c := data.getD ret 0
      let step := if c < 0x80 then 1 else if c < 0xE0 then 2 else if c < 0xF0 then 3 else 4
      charLengthToByteLengthLoop data length n (ret + step)
    else ret

/-- Function `charLengthToByteLengthFromUTF8(data, length, char_length)`. -/
def charLengthToByteLengthFromUTF8 (data : List Nat) (length char_length : Nat) : Nat :=
  charLengthToByteLengthLoop data length char_length 0

/-- What the string-to-string loop has produced so far: the bytes written
through `write_buffer` and the offsets array of the result column. -/
structure StringCastState where
  written : List Nat
  offsets_to : List Nat
deriving DecidableEq, Repr

/-- One round of the loop of "cast string as string" for row `i`.
`current_offset` is the variable declared before the loop. -/
def castStringAsStringStep (tp : tipb.FieldType) (col_from : ColumnString)
    (current_offset : Nat) (st : StringCastState) (i : Nat) : Option StringCastState :=
  let next_offset := col_from.offsets.getD i 0
  let org_length := toSizeT ((next_offset : Int) - current_offset - 1)
  let byte_length :=
    if tp.flen > 0 then
      if tp.charset == "utf8" || tp.charset == "utf8mb4" then
        charLengthToByteLengthFromUTF8 (col_from.chars.drop current_offset) org_length
          tp.flen.toNat
      else tp.flen.toNat
    else org_length
  let written := st.written ++
    (col_from.chars.drop current_offset).take (min byte_length org_length) ++ [0]
  (arrayStore st.offsets_to i written.length).map (fun offs => ⟨written, offs⟩)

/-- The whole loop of "cast string as string", started with the given offsets
array.  The source sets `current_offset = 0` before the loop and does not
assign it inside, so every round runs with `current_offset = 0`. -/
def castStringAsStringLoop (tp : tipb.FieldType) (col_from : ColumnString)
    (offsets_to : List Nat) : Option StringCastState :=
  (List.range col_from.size).foldlM (castStringAsStringStep tp col_from 0) ⟨[], offsets_to⟩

/-- The string branch of `TiDBConvertToString::execute` without nullable
result: the loop runs on the offsets of a fresh `ColumnString::create()`, which
are empty and which this branch does not resize.  The result is `none` when a
store into the offsets array falls outside the array. -/
def castStringAsString (tp : tipb.FieldType) (col_from : ColumnString) :
    Option ColumnString :=
  (castStringAsStringLoop tp col_from []).map (fun st => ⟨st.written, st.offsets_to⟩)

/-- The fields of an unpacked `MyDateTime`. -/
structure MyDateTime where
  year : Nat
  month : Nat
  day : Nat
  hour : Nat
  minute : Nat
  second : Nat
  micro_second : Nat
deriving DecidableEq, Repr

/-- The fields of an unpacked `MyDate`. -/
structure MyDate where
  year : Nat
  month : Nat
  day : Nat
deriving DecidableEq, Repr

/-- The value "cast time as int" stores for a `MyDateTime`; the sum is computed
in `unsigned long long`. -/
def castDateTimeAsInt (date_time : MyDateTime) : Nat :=
  (date_time.year * 10000000000 + date_time.month * 100000000 + date_time.day * 100000
    + date_time.hour * 1000 + date_time.minute * 100 + date_time.second) % 2 ^ 64

/-- The value "cast time as int" stores for a `MyDate`. -/
def castDateAsInt (date : MyDate) : Nat :=
  date.year * 10000 + date.month * 100 + date.day

/-- Specification side of "cast time as int": the number whose decimal digits
read YYYYMMDDhhmmss. -/
def dateTimeDigits (date_time : MyDateTime) : Nat :=
  date_time.year * 10 ^ 10 + date_time.month * 10 ^ 8 + date_time.day * 10 ^ 6
    + date_time.hour * 10 ^ 4 + date_time.minute * 10 ^ 2 + date_time.second

/-- A decimal value (`DecimalField<T>`): raw integer and scale. -/
structure DecimalField where
  value : Int
  scale : Nat
deriving DecidableEq, Repr

/-- Largest value `std::numeric_limits<T>::max()` of a signed integer type of
`bits` bits. -/
def signedMax (bits : Nat) : Int := 2 ^ (bits - 1) - 1

/-- Smallest value `std::numeric_limits<T>::min()` of a signed integer type of
`bits` bits. -/
def signedMin (bits : Nat) : Int := -(2 ^ (bits - 1))

/-- The scale loop shared by `decToInt` and `decToUInt`:
`v = v / 10 + (i + 1 == scale && v % 10 >= 5)` for `i = 0 .. scale - 1`, with
the truncating division and remainder of C++. -/
def decScaleLoop (scale : Nat) (v : Int) : Int :=
  (List.range scale).foldl
    (fun v i => Int.tdiv v 10 + (if i + 1 == scale && decide (Int.tmod v 10 ≥ 5) then 1 else 0))
    v

/-- Function `decToInt<T, ToFieldType>` for a signed target type of `bits` bits. -/
def decToInt (bits : Nat) (value : DecimalField) : Int :=
  let v := decScaleLoop value.scale value.value
  if v > signedMax bits || v < signedMin bits then
    if v > 0 then signedMax bits else signedMin bits
  else v

/-- Specification side of rounding: `v / 10 ^ s` rounded to the nearest
integer, halves away from zero, for either sign of `v`. -/
def roundHalfAwayFromZero (v : Int) (s : Nat) : Int :=
  if v ≥ 0 then (2 * v + 10 ^ s) / (2 * 10 ^ s)
  else -((2 * (-v) + 10 ^ s) / (2 * 10 ^ s))

/-- Specification side of `decToInt`: the rounded value clamped to the target
type. -/
def decToIntReference (bits : Nat) (value : DecimalField) : Int :=
  max (signedMin bits) (min (signedMax bits) (roundHalfAwayFromZero value.value value.scale))

/-- Largest value `std::numeric_limits<T>::max()` of an unsigned integer type of
`bits` bits. -/
def unsignedMax (bits : Nat) : Int := 2 ^ bits - 1

/-- Function `decToUInt<T, ToFieldType>` for an unsigned target type of `bits`
bits. -/
def decToUInt (bits : Nat) (value : DecimalField) : Int :=
  let v := value.value
  if v < 0 then 0
  else
    let v := decScaleLoop value.scale v
    let max_value := unsignedMax bits
    if v > max_value then max_value else v

/-- Modelled from the spec: `DecimalMaxValue::Get(prec)` is defined outside this
file; the claims about the decimal conversions take it to be the largest value
with `prec` decimal digits, `10^prec - 1`. -/
def DecimalMaxValue.Get (prec : Nat) : Int := 10 ^ prec - 1

/-- Reduction of an integer to a signed type of `bits` bits (two's complement),
which stands for `static_cast<UType>` and for `UType` arithmetic. -/
def wrapSigned (bits : Nat) (x : Int) : Int :=
  (x + 2 ^ (bits - 1)) % 2 ^ bits - 2 ^ (bits - 1)

/-- Modelled from the spec: `getScaleMultiplier<U>(scale)` is defined outside
this file; it is the power of ten `10^scale` in the native type of `U`. -/
def getScaleMultiplier (bits : Nat) (scale : Nat) : Int := wrapSigned bits (10 ^ scale)

/-- Function `ToTiDBDecimalInternal<T, U>(value, prec, scale)` for a decimal
type `U` with a native type of `bits` bits. -/
def ToTiDBDecimalInternal (bits : Nat) (value : Int) (prec scale : Nat) : Int :=
  let maxValue := DecimalMaxValue.Get prec
  if value > maxValue || value < -maxValue then
    if value > 0 then wrapSigned bits maxValue else wrapSigned bits (-maxValue)
  else
    let scale_mul := getScaleMultiplier bits scale
    wrapSigned bits (wrapSigned bits value * scale_mul)

/-- Function `ToTiDBDecimal<T, U>` for an integral source: both the signed and
the unsigned alternative hand the value to `ToTiDBDecimalInternal`. -/
def ToTiDBDecimalFromInt (bits : Nat) (value : Int) (prec scale : Nat) : Int :=
  ToTiDBDecimalInternal bits value prec scale

/-- The loop that drops the digits `scale .. v_scale - 1` in the decimal source
alternative of `ToTiDBDecimal`; the state is `(need2Round, value)`. -/
def dropDigitsLoop (count : Nat) (value : Int) : Bool × Int :=
  (List.range count).foldl
    (fun st _ =>
      (decide (Int.tmod (if st.2 < 0 then -st.2 else st.2) 10 ≥ 5), Int.tdiv st.2 10))
    (false, value)

/-- Function `ToTiDBDecimal<T, U>` for a decimal source `v` of scale `v_scale`.
`unsigned_flag` is the value of `hasUnsignedFlag(tp)`, a function defined
outside this file.  The computation runs in `Int256` and is taken without
overflow. -/
def ToTiDBDecimalFromDecimal (v : Int) (v_scale prec scale : Nat)
    (in_union unsigned_flag : Bool) : Int :=
  if in_union && unsigned_flag && decide (v < 0) then 0
  else
    let value :=
      if v_scale ≤ scale then
        (List.range (scale - v_scale)).foldl (fun x _ => x * 10) v
      else
        let st := dropDigitsLoop (v_scale - scale) v
        if st.1 then (if st.2 < 0 then st.2 - 1 else st.2 + 1) else st.2
    let max_value := DecimalMaxValue.Get prec
    if value > max_value || value < -max_value then
      if value > 0 then max_value else -max_value
    else value

/-- Specification side of the decimal-to-decimal conversion: the rescaled value,
rounded halves away from zero when digits are dropped, clamped to the target
precision. -/
def decimalToDecimalReference (v : Int) (v_scale prec scale : Nat) : Int :=
  let r := if v_scale ≤ scale then v * 10 ^ (scale - v_scale)
    else roundHalfAwayFromZero v (v_scale - scale)
  max (-(10 ^ prec - 1)) (min (10 ^ prec - 1) r)

/-- Chronological order of two datetimes: the lexicographic order of
(year, month, day, hour, minute, second). -/
def MyDateTime.before (a b : MyDateTime) : Bool :=
  decide (a.year < b.year) || (a.year == b.year &&
    (decide (a.month < b.month) || (a.month == b.month &&
      (decide (a.day < b.day) || (a.day == b.day &&
        (decide (a.hour < b.hour) || (a.hour == b.hour &&
          (decide (a.minute < b.minute) || (a.minute == b.minute &&
            decide (a.second < b.second))))))))))

/-- A valid datetime in the sense of the claims: month 1-12, day 1-31, hour
0-23, minute 0-59, second 0-59. -/
def MyDateTime.valid (a : MyDateTime) : Bool :=
  decide (1 ≤ a.month ∧ a.month ≤ 12 ∧ 1 ≤ a.day ∧ a.day ≤ 31 ∧ a.hour ≤ 23 ∧
    a.minute ≤ 59 ∧ a.second ≤ 59)

/-! ## The cast dispatch (`FunctionTiDBCast`) -/

/-- The data types as the dispatch sees them.  The classes are declared outside
this file; each constructor is one class the dispatch tests for with
`checkDataType` / `checkAndGetDataType`, with the parameters `equals` compares,
and `other` stands for every type it has no test for. -/
inductive IDataType where
  | DataTypeUInt8
  | DataTypeUInt16
  | DataTypeUInt32
  | DataTypeUInt64
  | DataTypeInt8
  | DataTypeInt16
  | DataTypeInt32
  | DataTypeInt64
  | DataTypeFloat32
  | DataTypeFloat64
  | DataTypeDecimal32 (prec scale : Nat)
  | DataTypeDecimal64 (prec scale : Nat)
  | DataTypeDecimal128 (prec scale : Nat)
  | DataTypeDecimal256 (prec scale : Nat)
  | DataTypeMyDate
  | DataTypeMyDateTime (fraction : Nat)
  | DataTypeString
  | DataTypeNothing
  | DataTypeNullable (nested : IDataType)
  | other (name : String)
deriving DecidableEq, Repr

/-- Method `isNullable()`. -/
def IDataType.isNullable : IDataType → Bool
  | IDataType.DataTypeNullable _ => true
  | _ => false

/-- Function `removeNullable(type)`. -/
def removeNullable : IDataType → IDataType
  | IDataType.DataTypeNullable nested => nested
  | t => t

/-- The methods of the data types that the dispatch calls and whose code is
outside this file, taken as parameters. -/
structure DataTypeMethods where
  onlyNull : IDataType → Bool
  isParametric : IDataType → Bool
  isString : IDataType → Bool
  getName : IDataType → String

/-- The source type classes `createWrapper<FromDataType, return_nullable>` is
instantiated with. -/
inductive FromDataType where
  | DataTypeUInt8
  | DataTypeUInt16
  | DataTypeUInt32
  | DataTypeUInt64
  | DataTypeInt8
  | DataTypeInt16
  | DataTypeInt32
  | DataTypeInt64
  | DataTypeFloat32
  | DataTypeFloat64
  | DataTypeDecimal32
  | DataTypeDecimal64
  | DataTypeDecimal128
  | DataTypeDecimal256
  | DataTypeMyDate
  | DataTypeMyDateTime
  | DataTypeString
deriving DecidableEq, Repr

/-- The wrapper functions the dispatch can return, named after what their body
calls. -/
inductive WrapperType where
  /-- The wrapper of `prepare` for an only-null source: a column of default
  values. -/
  | onlyNullDefault
  /-- The wrapper of `createIdentityWrapper`. -/
  | identity
  /-- Calls `TiDBConvertToInteger<FromDataType, DataTypeUInt64 or DataTypeInt64,
  return_nullable, to_unsigned>::execute`. -/
  | convertToInteger (source : FromDataType) (to_unsigned return_nullable : Bool)
  /-- Calls `TiDBConvertToDecimal<FromDataType, ...>::execute` with the
  precision and scale of the captured decimal type. -/
  | convertToDecimal (source : FromDataType) (decimal_type : IDataType)
      (return_nullable : Bool)
  /-- Calls `TiDBConvertToFloat<FromDataType, return_nullable, ...>::execute`. -/
  | convertToFloat (source : FromDataType) (return_nullable : Bool)
  /-- Calls `TiDBConvertToString<FromDataType, return_nullable>::execute`. -/
  | convertToString (source : FromDataType) (return_nullable : Bool)
deriving DecidableEq, Repr

/-- Member `createWrapper<FromDataType, return_nullable>(to_type)`: the chain of
tests on the destination type. -/
def createWrapperFor (m : DataTypeMethods) (source : FromDataType) (return_nullable : Bool)
    (to_type : IDataType) : Except Exception WrapperType :=
  match to_type with
  | IDataType.DataTypeUInt64 =>
      Except.ok (WrapperType.convertToInteger source true return_nullable)
  | IDataType.DataTypeInt64 =>
      Except.ok (WrapperType.convertToInteger source false return_nullable)
  | IDataType.DataTypeDecimal32 _ _ =>
      Except.ok (WrapperType.convertToDecimal source to_type return_nullable)
  | IDataType.DataTypeDecimal64 _ _ =>
      Except.ok (WrapperType.convertToDecimal source to_type return_nullable)
  | IDataType.DataTypeDecimal128 _ _ =>
      Except.ok (WrapperType.convertToDecimal source to_type return_nullable)
  | IDataType.DataTypeDecimal256 _ _ =>
      Except.ok (WrapperType.convertToDecimal source to_type return_nullable)
  | IDataType.DataTypeFloat64 =>
      Except.ok (WrapperType.convertToFloat source return_nullable)
  | IDataType.DataTypeString =>
      Except.ok (WrapperType.convertToString source return_nullable)
  | _ =>
      Except.error ⟨"Conversion to " ++ m.getName to_type ++ " is not supported",
        ErrorCode.CANNOT_CONVERT_TYPE⟩

/-- Member `createWrapper<return_nullable>(from_type, to_type)`: the identity
test, then the chain of tests on the source type. -/
def createWrapper (m : DataTypeMethods) (return_nullable : Bool)
    (from_type to_type : IDataType) : Except Exception WrapperType :=
  if from_type == to_type && !m.isParametric from_type && !m.isString from_type then
    Except.ok WrapperType.identity
  else
    match from_type with
    | IDataType.DataTypeUInt8 =>
        createWrapperFor m FromDataType.DataTypeUInt8 return_nullable to_type
    | IDataType.DataTypeUInt16 =>
        createWrapperFor m FromDataType.DataTypeUInt16 return_nullable to_type
    | IDataType.DataTypeUInt32 =>
        createWrapperFor m FromDataType.DataTypeUInt32 return_nullable to_type
    | IDataType.DataTypeUInt64 =>
        createWrapperFor m FromDataType.DataTypeUInt64 return_nullable to_type
    | IDataType.DataTypeInt8 =>
        createWrapperFor m FromDataType.DataTypeInt8 return_nullable to_type
    | IDataType.DataTypeInt16 =>
        createWrapperFor m FromDataType.DataTypeInt16 return_nullable to_type
    | IDataType.DataTypeInt32 =>
        createWrapperFor m FromDataType.DataTypeInt32 return_nullable to_type
    | IDataType.DataTypeInt64 =>
        createWrapperFor m FromDataType.DataTypeInt64 return_nullable to_type
    | IDataType.DataTypeFloat32 =>
        createWrapperFor m FromDataType.DataTypeFloat32 return_nullable to_type
    | IDataType.DataTypeFloat64 =>
        createWrapperFor m FromDataType.DataTypeFloat64 return_nullable to_type
    | IDataType.DataTypeDecimal32 _ _ =>
        createWrapperFor m FromDataType.DataTypeDecimal32 return_nullable to_type
    | IDataType.DataTypeDecimal64 _ _ =>
        createWrapperFor m FromDataType.DataTypeDecimal64 return_nullable to_type
    | IDataType.DataTypeDecimal128 _ _ =>
        createWrapperFor m FromDataType.DataTypeDecimal128 return_nullable to_type
    | IDataType.DataTypeDecimal256 _ _ =>
        createWrapperFor m FromDataType.DataTypeDecimal256 return_nullable to_type
    | IDataType.DataTypeMyDate =>
        createWrapperFor m FromDataType.DataTypeMyDate return_nullable to_type
    | IDataType.DataTypeMyDateTime _ =>
        createWrapperFor m FromDataType.DataTypeMyDateTime return_nullable to_type
    | IDataType.DataTypeString =>
        createWrapperFor m FromDataType.DataTypeString return_nullable to_type
    | _ =>
        Except.error
          ⟨"Conversion from " ++ m.getName from_type ++ " to " ++ m.getName to_type ++
            " is not supported", ErrorCode.CANNOT_CONVERT_TYPE⟩

/-- Member `prepareImpl(from_type, to_type)`. -/
def prepareImpl (m : DataTypeMethods) (from_type to_type : IDataType) :
    Except Exception WrapperType :=
  if from_type == to_type then Except.ok WrapperType.identity
  else
    let return_nullable := to_type.isNullable
    if return_nullable then createWrapper m true from_type to_type
    else createWrapper m false from_type to_type

/-- Member `prepare(from_type, to_type)`. -/
def prepare (m : DataTypeMethods) (from_type to_type : IDataType) :
    Except Exception WrapperType :=
  if m.onlyNull from_type then Except.ok WrapperType.onlyNullDefault
  else
    let from_inner_type := removeNullable from_type
    let to_inner_type := removeNullable to_type
    prepareImpl m from_inner_type to_inner_type

/-- Specification side of the dispatch: the source types a conversion exists
for. -/
def isCastSource : IDataType → Bool
  | IDataType.DataTypeUInt8 => true
  | IDataType.DataTypeUInt16 => true
  | IDataType.DataTypeUInt32 => true
  | IDataType.DataTypeUInt64 => true
  | IDataType.DataTypeInt8 => true
  | IDataType.DataTypeInt16 => true
  | IDataType.DataTypeInt32 => true
  | IDataType.DataTypeInt64 => true
  | IDataType.DataTypeFloat32 => true
  | IDataType.DataTypeFloat64 => true
  | IDataType.DataTypeDecimal32 _ _ => true
  | IDataType.DataTypeDecimal64 _ _ => true
  | IDataType.DataTypeDecimal128 _ _ => true
  | IDataType.DataTypeDecimal256 _ _ => true
  | IDataType.DataTypeMyDate => true
  | IDataType.DataTypeMyDateTime _ => true
  | IDataType.DataTypeString => true
  | _ => false

/-- Specification side of the dispatch: the destination types a conversion
exists for. -/
def isCastDestination : IDataType → Bool
  | IDataType.DataTypeUInt64 => true
  | IDataType.DataTypeInt64 => true
  | IDataType.DataTypeDecimal32 _ _ => true
  | IDataType.DataTypeDecimal64 _ _ => true
  | IDataType.DataTypeDecimal128 _ _ => true
  | IDataType.DataTypeDecimal256 _ _ => true
  | IDataType.DataTypeFloat64 => true
  | IDataType.DataTypeString => true
  | _ => false

/-- A column as the cast functions see it. -/
inductive CastColumn where
  | string (column : ColumnString)
  | decimal (scale : Nat) (data : List Int)
  | vector (data : List Int)
deriving DecidableEq, Repr

/-- Row count `column->size()`. -/
def CastColumn.size : CastColumn → Nat
  | CastColumn.string c => c.size
  | CastColumn.decimal _ data => data.length
  | CastColumn.vector data => data.length

/-- The column pointers of a block by position, `block.getByPosition(i).column`;
`none` is a position no column has been assigned to. -/
abbrev CastBlock := List (Option CastColumn)

/-- The body of the wrapper of `createIdentityWrapper`:
`block.getByPosition(result).column = block.getByPosition(arguments.front()).column`.
The lambda receives the union flag and the TiDB field type and uses neither.
Positions are taken to lie inside the block. -/
def identityWrapperExecute (block : CastBlock) (arguments : List Nat) (result : Nat)
    (_in_union : Bool) (_tidb_tp : tipb.FieldType) : CastBlock :=
  block.set result (block.getD (arguments.headD 0) none)

/-- Instance `TiDBConvertToDecimal<FromDataType, ...>::execute` for a decimal
`FromDataType`, without nullable result: the result position receives a decimal
column of the target scale with one converted value per source row.  It is
`none` when the argument is not a decimal column. -/
def castDecimalAsDecimalExecute (block : CastBlock) (arguments : List Nat) (result : Nat)
    (prec scale : Nat) (in_union unsigned_flag : Bool) : Option CastBlock :=
  match block.getD (arguments.headD 0) none with
  | some (CastColumn.decimal v_scale vec_from) =>
    some (block.set result (some (CastColumn.decimal scale
      (vec_from.map
        (fun v => ToTiDBDecimalFromDecimal v v_scale prec scale in_union unsigned_flag)))))
  | _ => none

/-- Instance `TiDBConvertToDecimal<DataTypeString, ...>::execute`: after `size`
and the null map are set up, the alternative taken is the one for
`DataTypeString`, whose body is empty, so the block is left as it is. -/
def castStringAsDecimalExecute (block : CastBlock) (_arguments : List Nat) (_result : Nat)
    (_prec _scale : Nat) (_in_union _unsigned_flag : Bool) : CastBlock :=
  block

/-- Specification side of UTF-8: the byte length of a character as its first
byte announces it. -/
def utf8CharLength (c : Nat) : Nat :=
  if c < 0x80 then 1 else if c < 0xE0 then 2 else if c < 0xF0 then 3 else 4

/-- Specification side of UTF-8: a text given by its characters is well-formed
when every character is a non-empty byte string of the length its first byte
announces. -/
def wellFormedChars (chars : List (List Nat)) : Prop :=
  ∀ ch ∈ chars, ∃ b rest, ch = b :: rest ∧ ch.length = utf8CharLength b

/-! ## Trimming (`TiDBConvertToInteger::trim`, `TiDBConvertToFloat::trim`) -/

/-- A string view (`StringRef`): the bytes that start at the pointer `data`, and
the number `size` of them that belong to the view.  A default-constructed
`StringRef` has a null pointer, written as no bytes, and size 0. -/
structure StringRef where
  data : List Nat
  size : Nat
deriving DecidableEq, Repr

/-- The bytes a string view stands for. -/
def StringRef.toBytes (value : StringRef) : List Nat := value.data.take value.size

/-- The first loop of `trim`: `start` advances while it is below `value.size`
and the byte at `start` is in `spaces`; `fuel` bounds the number of rounds. -/
def trimStartLoop (spaces : List Nat) (value : StringRef) : Nat → Nat → Nat
  | 0, start => start
  | fuel + 1, start =>
    if start < value.size then
      if !spaces.contains (value.data.getD start 0) then start
      else trimStartLoop spaces value fuel (start + 1)
    else start

/-- The second loop of `trim`: `end` goes down while it is above `start` and
the byte at `end - 1` is in `spaces`. -/
def trimEndLoop (spaces : List Nat) (value : StringRef) (start : Nat) : Nat → Nat
  | 0 => 0
  | e + 1 =>
    if start < e + 1 then
      if !spaces.contains (value.data.getD e 0) then e + 1
      else trimEndLoop spaces value start e
    else e + 1

/-- The body shared by the two `trim` functions, for a given set `spaces`. -/
def trimBody (spaces : List Nat) (value : StringRef) : StringRef :=
  let ret : StringRef := ⟨[], 0⟩
  let start := trimStartLoop spaces value value.size 0
  let end_ := trimEndLoop spaces value start ret.size
  if start ≥ end_ then ret
  else ⟨value.data.drop start, end_ - start⟩

/-- Function `TiDBConvertToInteger::trim`, with the set
`spaces = (tab, newline, vertical tab, form feed, carriage return, space)`. -/
def TiDBConvertToInteger.trim (value : StringRef) : StringRef :=
  trimBody [9, 10, 11, 12, 13, 32] value

/-- Function `TiDBConvertToFloat::trim`; its set names the space twice. -/
def TiDBConvertToFloat.trim (value : StringRef) : StringRef :=
  trimBody [32, 9, 10, 11, 12, 13, 32] value

/-- Specification side of `trim`: the whitespace bytes. -/
def isWhitespace (c : Nat) : Bool :=
  c == 9 || c == 10 || c == 11 || c == 12 || c == 13 || c == 32

/-- Specification side of `trim`: the input without its leading and trailing
whitespace. -/
def trimReference (s : List Nat) : List Nat :=
  ((s.dropWhile isWhitespace).reverse.dropWhile isWhitespace).reverse

/-- Decoders that build one column per schema entry, named after it, each
holding the cells of the chunk. -/
def schemaCodecs : ChunkCodecs where
  CHBlockChunkCodec := fun ch schema =>
    ⟨schema.map (fun entry => ⟨entry.1, ch.rows_data.map Int.ofNat⟩)⟩
  ArrowChunkCodec := fun ch schema =>
    ⟨schema.map (fun entry => ⟨entry.1, ch.rows_data.map Int.ofNat⟩)⟩
  DefaultChunkCodec := fun ch schema =>
    ⟨schema.map (fun entry => ⟨entry.1, ch.rows_data.map Int.ofNat⟩)⟩

/-- What a wrapper function does to the columns of a block; `none` stands for a
run with a store or a read outside an array. -/
abbrev WrapperBody := CastBlock → List Nat → Nat → Bool → tipb.FieldType → Option CastBlock

/-- Instance `TiDBConvertToString<DataTypeString, false>::execute` on a block:
the string alternative runs on the argument column and the column it builds is
assigned to the result position. -/
def castStringAsStringExecute : WrapperBody :=
  fun block arguments result _in_union tp =>
    match block.getD (arguments.headD 0) none with
    | some (CastColumn.string col_from) =>
      (castStringAsString tp col_from).map
        (fun col_to => block.set result (some (CastColumn.string col_to)))
    | _ => none

/-- The body of a wrapper the dispatch returned.  The identity wrapper and the
string-to-string conversion are the bodies given above; the bodies of the other
wrappers are not part of this development and are given by `others`. -/
def WrapperType.execute (others : WrapperType → WrapperBody) : WrapperType → WrapperBody
  | WrapperType.identity =>
    fun block arguments result in_union tp =>
      some (identityWrapperExecute block arguments result in_union tp)
  | WrapperType.convertToString FromDataType.DataTypeString false =>
    castStringAsStringExecute
  | w => others w

/-- A cast as the program runs it: `FunctionTiDBCast::prepare` builds the wrapper
for the argument type and the return type, and
`PreparedFunctionTiDBCast::executeImpl` calls it with the first argument
position only. -/
def tidbCast (m : DataTypeMethods) (others : WrapperType → WrapperBody)
    (from_type to_type : IDataType) (in_union : Bool) (tidb_tp : tipb.FieldType)
    (block : CastBlock) (arguments : List Nat) (result : Nat) :
    Except Exception (Option CastBlock) :=
  match prepare m from_type to_type with
  | Except.error e => Except.error e
  | Except.ok wrapper_function =>
    Except.ok (wrapper_function.execute others block [arguments.headD 0] result in_union tidb_tp)

/-! ## Sample data used to instantiate the theorems -/

/-- A column-info conversion that copies the four attributes. -/
def sampleColumnInfo (ft : tipb.FieldType) : ColumnInfo :=
  ⟨ft.tp, ft.flag, ft.flen, ft.decimal⟩

/-- A batch with one column `a` holding the given cells. -/
def sampleBlock (cells : List Int) : Block := ⟨[⟨"a", cells⟩]⟩

/-- Decoders that read the chunk bytes as the cells of one column `a`; the three
differ in a marker cell put in front. -/
def sampleCodecs : ChunkCodecs where
  CHBlockChunkCodec := fun ch _ => sampleBlock (2 :: ch.rows_data.map Int.ofNat)
  ArrowChunkCodec := fun ch _ => sampleBlock (1 :: ch.rows_data.map Int.ofNat)
  DefaultChunkCodec := fun ch _ => sampleBlock (0 :: ch.rows_data.map Int.ofNat)

/-- A freshly constructed receiver with two sender tasks and schema
`[("exchange_receiver_0", int64)]`. -/
def sampleReceiver : ExchangeReceiver :=
  ExchangeReceiver.new sampleColumnInfo ⟨["task1", "task2"], [⟨8, 0, 20, 0, "binary"⟩]⟩ ⟨1, 7⟩

/-- An initialized receiver with two queued batches, two open calls and a
latched error. -/
def sampleLatched : ExchangeReceiver :=
  { sampleReceiver.init with
    block_buffer := [sampleBlock [1, 2, 3], sampleBlock [4, 5]]
    meet_error := true
    err := ⟨"transport error", ErrorCode.other 1⟩ }

/-- An initialized receiver with two queued batches whose calls have all closed. -/
def sampleDrained : ExchangeReceiver :=
  { sampleReceiver.init with
    block_buffer := [sampleBlock [1, 2, 3], sampleBlock [4, 5, 6, 7, 8]]
    live_connections := 0 }

/-- An initialized receiver whose two senders closed without sending anything. -/
def sampleFinished : ExchangeReceiver :=
  { sampleReceiver.init with live_connections := 0 }

/-- A packet in the CHBlock encoding with one chunk of three cells. -/
def samplePacketOne : mpp.MPPDataPacket := ⟨⟨tipb.EncodeType.TypeCHBlock, [⟨[1, 2, 3]⟩]⟩⟩

/-- A packet in the Arrow encoding with two chunks. -/
def samplePacketTwo : mpp.MPPDataPacket :=
  ⟨⟨tipb.EncodeType.TypeChunk, [⟨[4]⟩, ⟨[5, 6]⟩]⟩⟩

/-- A packet in the CHBlock encoding that carries no chunk. -/
def samplePacketEmpty : mpp.MPPDataPacket := ⟨⟨tipb.EncodeType.TypeCHBlock, []⟩⟩

/-- A packet with an unsupported tag and one chunk. -/
def samplePacketBad : mpp.MPPDataPacket := ⟨⟨tipb.EncodeType.other 99, [⟨[1]⟩]⟩⟩

/-- A packet with an unsupported tag that carries no chunk. -/
def samplePacketBadEmpty : mpp.MPPDataPacket := ⟨⟨tipb.EncodeType.other 99, []⟩⟩

/-- A receiver with one started worker and two open calls, as the destructor may
find it. -/
def sampleRunning : ExchangeReceiver := sampleReceiver.init

/-- The error a first failing sender reports. -/
def sampleFirstError : Exception := ⟨"transport error", ErrorCode.other 1⟩

/-- The error a second failing sender reports later. -/
def sampleSecondError : Exception := ⟨"decode failure", ErrorCode.LOGICAL_ERROR⟩

/-- The datetime 2020-01-02 03:04:05. -/
def sampleDateTime : MyDateTime := ⟨2020, 1, 2, 3, 4, 5, 0⟩

/-- The decimal -1.5: raw value -15 at scale 1. -/
def sampleDecimal : DecimalField := ⟨-15, 1⟩

/-- The time 2020-01-01 00:10:00. -/
def sampleTenPastMidnight : MyDateTime := ⟨2020, 1, 1, 0, 10, 0, 0⟩

/-- The time 2020-01-01 01:00:00. -/
def sampleOneOClock : MyDateTime := ⟨2020, 1, 1, 1, 0, 0, 0⟩

/-- The time 2020-01-01 09:59:59. -/
def sampleBeforeTen : MyDateTime := ⟨2020, 1, 1, 9, 59, 59, 0⟩

/-- The time 2020-01-01 10:00:00. -/
def sampleTenOClock : MyDateTime := ⟨2020, 1, 1, 10, 0, 0, 0⟩

/-- Type methods for the examples: only `Nullable(Nothing)` is only-null,
decimals and nullables are parametric, names are schematic. -/
def sampleMethods : DataTypeMethods where
  onlyNull := fun t => t == IDataType.DataTypeNullable IDataType.DataTypeNothing
  isParametric := fun t =>
    match t with
    | IDataType.DataTypeDecimal32 _ _ => true
    | IDataType.DataTypeDecimal64 _ _ => true
    | IDataType.DataTypeDecimal128 _ _ => true
    | IDataType.DataTypeDecimal256 _ _ => true
    | IDataType.DataTypeNullable _ => true
    | _ => false
  isString := fun t => t == IDataType.DataTypeString
  getName := fun t =>
    match t with
    | IDataType.other name => name
    | IDataType.DataTypeMyDate => "MyDate"
    | _ => "type"

/-- A block with the one-row string column "1.5" at position 0 and no column
yet at the result position 1. -/
def sampleStringBlock : CastBlock :=
  [some (CastColumn.string (ColumnString.ofRows [[49, 46, 53]])), none]

/-- A block with the one-row decimal column 1.5 (scale 1) at position 0 and no
column yet at the result position 1. -/
def sampleDecimalBlock : CastBlock := [some (CastColumn.decimal 1 [15]), none]

/-- A one-row string column holding the UTF-8 text "éa" (bytes C3 A9 61). -/
def sampleUtf8Column : ColumnString := ColumnString.ofRows [[0xC3, 0xA9, 0x61]]

/-- A string target type of length 1 with charset utf8. -/
def sampleUtf8Type : tipb.FieldType := ⟨254, 0, 1, 0, "utf8"⟩

/-- A string target type of length 1 with charset binary. -/
def sampleBinaryType : tipb.FieldType := ⟨254, 0, 1, 0, "binary"⟩

/-- An initialized receiver built from a descriptor with one sender task and no
output column. -/
def sampleNoColumns : ExchangeReceiver :=
  (ExchangeReceiver.new sampleColumnInfo ⟨["task1"], []⟩ ⟨1, 7⟩).init

/-- The string view "a". -/
def sampleWord : StringRef := ⟨[97], 1⟩

/-- The string view " a " with a space on either side. -/
def samplePadded : StringRef := ⟨[32, 97, 32], 3⟩

/-- Bodies for the wrappers that are not embedded: none of them yields a block. -/
def sampleOtherBodies : WrapperType → WrapperBody := fun _ _ _ _ _ _ => none

/-- A block with the one-row string column "éa" at position 0 and no column yet
at the result position 1. -/
def sampleUtf8Block : CastBlock := [some (CastColumn.string sampleUtf8Column), none]

/-! ## Frame lemmas for `init` -/

theorem init_of_inited (r : ExchangeReceiver) (h : r.inited = true) : r.init = r := by
  simp [ExchangeReceiver.init, h]

theorem init_inited (r : ExchangeReceiver) : r.init.inited = true := by
  unfold ExchangeReceiver.init
  by_cases h : r.inited = true <;> simp [h]

theorem init_block_buffer (r : ExchangeReceiver) : r.init.block_buffer = r.block_buffer := by
  unfold ExchangeReceiver.init
  by_cases h : r.inited = true <;> simp [h, ExchangeReceiver.sendAsyncReq]

theorem init_meet_error (r : ExchangeReceiver) : r.init.meet_error = r.meet_error := by
  unfold ExchangeReceiver.init
  by_cases h : r.inited = true <;> simp [h, ExchangeReceiver.sendAsyncReq]

theorem init_err (r : ExchangeReceiver) : r.init.err = r.err := by
  unfold ExchangeReceiver.init
  by_cases h : r.inited = true <;> simp [h, ExchangeReceiver.sendAsyncReq]

theorem init_schema (r : ExchangeReceiver) : r.init.schema = r.schema := by
  unfold ExchangeReceiver.init
  by_cases h : r.inited = true <;> simp [h, ExchangeReceiver.sendAsyncReq]

/-- The state `nextBlock` works on after its `if (!inited) init();`. -/
theorem ensureInited_eq (r : ExchangeReceiver) :
    (if (!r.inited) = true then r.init else r) = r.init := by
  by_cases h : r.inited = true
  · simp [h, init_of_inited]
  · simp [h]

/-- Unfolding of `nextBlock` in terms of the state after the implicit `init`. -/
theorem nextBlock_eq (r : ExchangeReceiver) :
    r.nextBlock =
      if (!r.init.waitPredicate) = true then (NextBlockResult.waiting, r.init)
      else if r.init.meet_error = true then (NextBlockResult.thrown r.init.err, r.init)
      else
        match r.init.block_buffer with
        | [] => (NextBlockResult.returned Block.empty, r.init)
        | blk :: rest =>
          (NextBlockResult.returned blk, { r.init with block_buffer := rest }) := by
  unfold ExchangeReceiver.nextBlock
  simp only [ensureInited_eq]

/-! ## The pull interface -/

/-- C1: in every state with the error latch set, `nextBlock` throws the retained
error and returns no block, whatever the queue and the live-call count are. -/
theorem nextBlock_raises_latched_error (r : ExchangeReceiver)
    (h : r.meet_error = true) :
    r.nextBlock.1 = NextBlockResult.thrown r.err ∧
      ∀ blk, r.nextBlock.1 ≠ NextBlockResult.returned blk := by
  have h1 : r.nextBlock.1 = NextBlockResult.thrown r.err := by
    rw [nextBlock_eq]
    simp [ExchangeReceiver.waitPredicate, init_meet_error, init_err, h]
  refine ⟨h1, ?_⟩
  intro blk hb
  rw [h1] at hb
  cases hb

/-- C1 at a latched receiver with two queued batches and two open calls: the
error is thrown, the batch at the front is not returned. -/
theorem nextBlock_raises_latched_error_witness :
    sampleLatched.meet_error = true ∧
      sampleLatched.block_buffer = [sampleBlock [1, 2, 3], sampleBlock [4, 5]] ∧
      sampleLatched.live_connections = 2 ∧
      sampleLatched.nextBlock.1 =
        NextBlockResult.thrown ⟨"transport error", ErrorCode.other 1⟩ :=
  ⟨rfl, rfl, by decide, (nextBlock_raises_latched_error sampleLatched rfl).1⟩

/-- With no error latched and a block at the front of the queue, `nextBlock`
returns it and pops it. -/
theorem nextBlock_front_eq (r : ExchangeReceiver) (blk : Block) (rest : List Block)
    (he : r.meet_error = false) (hq : r.block_buffer = blk :: rest) :
    r.nextBlock = (NextBlockResult.returned blk, { r.init with block_buffer := rest }) := by
  rw [nextBlock_eq]
  have hb : r.init.block_buffer = blk :: rest := by rw [init_block_buffer, hq]
  simp [ExchangeReceiver.waitPredicate, init_meet_error, he, hb]

/-- C2: with no error latched and a non-empty queue, `nextBlock` returns the
block at the front and leaves the rest of the queue, in the same order; nothing
else changes apart from the implicit `init` of an uninitialized receiver. -/
theorem nextBlock_returns_front (r : ExchangeReceiver) (blk : Block) (rest : List Block)
    (he : r.meet_error = false) (hq : r.block_buffer = blk :: rest) :
    r.nextBlock.1 = NextBlockResult.returned blk ∧
      r.nextBlock.2.block_buffer = rest ∧
      r.nextBlock.2 = { r.init with block_buffer := rest } := by
  rw [nextBlock_front_eq r blk rest he hq]
  exact ⟨rfl, rfl, rfl⟩

/-- C2 at an initialized receiver holding a 3-row and a 5-row batch. -/
theorem nextBlock_returns_front_witness :
    sampleDrained.nextBlock.1 = NextBlockResult.returned (sampleBlock [1, 2, 3]) ∧
      sampleDrained.nextBlock.2.block_buffer = [sampleBlock [4, 5, 6, 7, 8]] ∧
      sampleDrained.nextBlock.2 =
        { sampleDrained.init with block_buffer := [sampleBlock [4, 5, 6, 7, 8]] } :=
  nextBlock_returns_front sampleDrained (sampleBlock [1, 2, 3])
    [sampleBlock [4, 5, 6, 7, 8]] rfl rfl

/-- One `nextBlock` call on an initialized, error-free receiver whose calls have
all closed and whose queue is empty: the empty block, state untouched. -/
theorem nextBlock_eos_step (r : ExchangeReceiver) (hi : r.inited = true)
    (he : r.meet_error = false) (hq : r.block_buffer = []) (hl : r.live_connections = 0) :
    r.nextBlock = (NextBlockResult.returned Block.empty, r) := by
  rw [nextBlock_eq, init_of_inited r hi]
  simp [ExchangeReceiver.waitPredicate, he, hq, hl]

/-- C3: on an initialized receiver with no error latched, an empty queue and a
live-call count of zero, `nextBlock` returns the empty block (it does not wait)
and leaves the state unchanged; hence any number of further calls return the
empty block again. -/
theorem nextBlock_end_of_stream (r : ExchangeReceiver) (hi : r.inited = true)
    (he : r.meet_error = false) (hq : r.block_buffer = []) (hl : r.live_connections = 0) :
    r.nextBlock = (NextBlockResult.returned Block.empty, r) ∧
      ∀ n : Nat, r.nextBlocks n =
        (List.replicate n (NextBlockResult.returned Block.empty), r) := by
  have h1 := nextBlock_eos_step r hi he hq hl
  refine ⟨h1, ?_⟩
  intro n
  induction n with
  | zero => rfl
  | succ n ih =>
    simp only [ExchangeReceiver.nextBlocks, h1, ih, List.replicate_succ]

/-- C3 at a receiver whose senders all closed without data: three calls in a
row report end-of-stream and the state stays the same. -/
theorem nextBlock_end_of_stream_witness :
    sampleFinished.nextBlock = (NextBlockResult.returned Block.empty, sampleFinished) ∧
      sampleFinished.nextBlocks 3 =
        ([NextBlockResult.returned Block.empty, NextBlockResult.returned Block.empty,
          NextBlockResult.returned Block.empty], sampleFinished) :=
  ⟨(nextBlock_end_of_stream sampleFinished rfl rfl rfl rfl).1,
    (nextBlock_end_of_stream sampleFinished rfl rfl rfl rfl).2 3⟩

/-- Draining: from an error-free state, as many `nextBlock` calls as there are
queued blocks return them front to back and empty the queue; on an initialized
receiver nothing else changes. -/
theorem nextBlocks_drain (q : List Block) :
    ∀ r : ExchangeReceiver, r.meet_error = false → r.block_buffer = q →
      (r.nextBlocks q.length).1 = q.map NextBlockResult.returned ∧
      (r.nextBlocks q.length).2.block_buffer = [] ∧
      (r.nextBlocks q.length).2.meet_error = false ∧
      (r.inited = true → (r.nextBlocks q.length).2 = { r with block_buffer := [] }) := by
  induction q with
  | nil =>
    intro r he hq
    refine ⟨rfl, hq, he, ?_⟩
    intro _
    simp only [List.length_nil, ExchangeReceiver.nextBlocks]
    rw [← hq]
  | cons blk rest ih =>
    intro r he hq
    have hf := nextBlock_front_eq r blk rest he hq
    have h3 : r.nextBlock.2 = { r.init with block_buffer := rest } := by rw [hf]
    have hm : r.nextBlock.2.meet_error = false := by rw [h3]; simp [init_meet_error, he]
    have hb : r.nextBlock.2.block_buffer = rest := by rw [h3]
    obtain ⟨i1, i2, i3, i4⟩ := ih r.nextBlock.2 hm hb
    have h1 : r.nextBlock.1 = NextBlockResult.returned blk := by rw [hf]
    simp only [List.length_cons, ExchangeReceiver.nextBlocks, List.map_cons]
    refine ⟨by rw [h1, i1], i2, i3, ?_⟩
    intro hi
    have hi2 : r.nextBlock.2.inited = true := by rw [h3]; simp [init_inited]
    rw [i4 hi2, h3, init_of_inited r hi]

/-- Successive calls compose: `m + n` calls are `m` calls followed by `n`. -/
theorem nextBlocks_add (m n : Nat) :
    ∀ r : ExchangeReceiver, r.nextBlocks (m + n) =
      ((r.nextBlocks m).1 ++ ((r.nextBlocks m).2.nextBlocks n).1,
        ((r.nextBlocks m).2.nextBlocks n).2) := by
  induction m with
  | zero =>
    intro r
    simp [ExchangeReceiver.nextBlocks]
  | succ m ih =>
    intro r
    have e : m + 1 + n = (m + n) + 1 := by omega
    rw [e]
    simp only [ExchangeReceiver.nextBlocks, ih, List.cons_append]

/-- C4: on an initialized receiver with no error latched and a live-call count
of zero, holding the batches b1..bn (n >= 0), n+1 successive `nextBlock` calls
return b1, ..., bn in that order and then the empty block; the queue ends empty
and nothing else in the state changes. -/
theorem nextBlocks_deliver_queue_then_eos (r : ExchangeReceiver) (hi : r.inited = true)
    (he : r.meet_error = false) (hl : r.live_connections = 0) :
    r.nextBlocks (r.block_buffer.length + 1) =
      (r.block_buffer.map NextBlockResult.returned ++ [NextBlockResult.returned Block.empty],
        { r with block_buffer := [] }) := by
  obtain ⟨d1, -, -, d4⟩ := nextBlocks_drain r.block_buffer r he rfl
  have d := d4 hi
  have hs : ({ r with block_buffer := [] } : ExchangeReceiver).nextBlock =
      (NextBlockResult.returned Block.empty, { r with block_buffer := [] }) :=
    nextBlock_eos_step _ hi he rfl hl
  rw [nextBlocks_add, d1, d]
  simp only [ExchangeReceiver.nextBlocks, hs]

/-- C4 at a receiver whose two senders delivered a 3-row and a 5-row batch and
closed: three calls give the two batches in queue order, then end-of-stream. -/
theorem nextBlocks_deliver_queue_then_eos_witness :
    sampleDrained.nextBlocks 3 =
      ([NextBlockResult.returned (sampleBlock [1, 2, 3]),
        NextBlockResult.returned (sampleBlock [4, 5, 6, 7, 8]),
        NextBlockResult.returned Block.empty],
        { sampleDrained with block_buffer := [] }) :=
  nextBlocks_deliver_queue_then_eos sampleDrained rfl rfl rfl

/-! ## Decoding packets into the queue -/

/-- The loop of `decodePacket` under a supported tag: it returns normally, has
appended the decoded batches in chunk order and notified once per batch. -/
theorem decodePacketLoop_supported (codecs : ChunkCodecs) (et : tipb.EncodeType)
    (hs : supportedEncodeType et = true) (chunks : List tipb.Chunk) :
    ∀ r : ExchangeReceiver, decodePacketLoop codecs et chunks r =
      (Except.ok (),
        { r with
          block_buffer := r.block_buffer ++ decodedBatches codecs r.schema ⟨⟨et, chunks⟩⟩
          history := r.history ++ List.replicate chunks.length Effect.notify_one }) := by
  induction chunks with
  | nil =>
    intro r
    cases r
    cases et <;> simp [decodePacketLoop, decodedBatches]
  | cons ch rest ih =>
    intro r
    cases et with
    | other raw => simp [supportedEncodeType] at hs
    | TypeDefault =>
      simp [decodePacketLoop, decodeChunk, ih, decodedBatches, List.replicate_succ]
    | TypeChunk =>
      simp [decodePacketLoop, decodeChunk, ih, decodedBatches, List.replicate_succ]
    | TypeCHBlock =>
      simp [decodePacketLoop, decodeChunk, ih, decodedBatches, List.replicate_succ]

/-- Effect of `decodePacket` on a packet with a supported tag. -/
theorem decodePacket_supported (codecs : ChunkCodecs) (r : ExchangeReceiver)
    (p : mpp.MPPDataPacket) (hs : supportedEncodeType p.data.encode_type = true) :
    r.decodePacket codecs p =
      (Except.ok (),
        { r with
          block_buffer := r.block_buffer ++ decodedBatches codecs r.schema p
          history := r.history ++ List.replicate p.data.chunks.length Effect.notify_one }) := by
  unfold ExchangeReceiver.decodePacket
  by_cases h0 : p.data.chunks = []
  · cases r
    simp [h0, decodedBatches]
    cases p.data.encode_type <;> simp
  · have hn : ¬ p.data.chunks.length = 0 := by
      simpa [List.length_eq_zero] using h0
    simp only [beq_iff_eq, hn, if_false]
    rw [decodePacketLoop_supported codecs _ hs]

/-- Effect of `decodePacket` on a packet with an unsupported tag: an early
return on zero chunks, otherwise the exception of the first loop round. -/
theorem decodePacket_unsupported (codecs : ChunkCodecs) (r : ExchangeReceiver)
    (p : mpp.MPPDataPacket) (hs : supportedEncodeType p.data.encode_type = false) :
    r.decodePacket codecs p =
      if p.data.chunks = [] then (Except.ok (), r)
      else (Except.error ⟨"Unsupported encode type", ErrorCode.LOGICAL_ERROR⟩, r) := by
  obtain ⟨⟨et, chunks⟩⟩ := p
  unfold ExchangeReceiver.decodePacket
  cases chunks with
  | nil => simp
  | cons ch rest =>
    cases et with
    | other raw => simp [decodePacketLoop, decodeChunk]
    | TypeDefault => simp [supportedEncodeType] at hs
    | TypeChunk => simp [supportedEncodeType] at hs
    | TypeCHBlock => simp [supportedEncodeType] at hs

/-- Packets with supported tags, decoded in order: no exception, the batches of
all packets appended in packet order, latch and schema untouched. -/
theorem decodePackets_supported (codecs : ChunkCodecs) (ps : List mpp.MPPDataPacket)
    (hs : ∀ p ∈ ps, supportedEncodeType p.data.encode_type = true) :
    ∀ r : ExchangeReceiver,
      (r.decodePackets codecs ps).1 = Except.ok () ∧
      (r.decodePackets codecs ps).2.block_buffer =
        r.block_buffer ++ ps.flatMap (decodedBatches codecs r.schema) ∧
      (r.decodePackets codecs ps).2.meet_error = r.meet_error := by
  induction ps with
  | nil =>
    intro r
    simp [ExchangeReceiver.decodePackets]
  | cons p ps ih =>
    intro r
    have hp := decodePacket_supported codecs r p (hs p (List.mem_cons_self _ _))
    have ih2 := ih (fun q hq => hs q (List.mem_cons_of_mem _ hq))
      { r with
        block_buffer := r.block_buffer ++ decodedBatches codecs r.schema p
        history := r.history ++ List.replicate p.data.chunks.length Effect.notify_one }
    simp only [ExchangeReceiver.decodePackets, hp]
    obtain ⟨a, b, c⟩ := ih2
    refine ⟨a, ?_, c⟩
    rw [b]
    simp [List.flatMap_cons, List.append_assoc]

/-- C5: starting from an empty queue with no error latched, after `decodePacket`
has handled the packets P1..Pk in order (all with supported tags, so none
throws), the queue holds the batches of P1, then P2, ..., then Pk, each in chunk
order, and that many successive `nextBlock` calls return exactly these batches in
this order and empty the queue; a further call returns no batch beyond them. -/
theorem decodePackets_then_nextBlocks (codecs : ChunkCodecs) (r : ExchangeReceiver)
    (ps : List mpp.MPPDataPacket) (hq : r.block_buffer = []) (he : r.meet_error = false)
    (hs : ∀ p ∈ ps, supportedEncodeType p.data.encode_type = true) :
    (r.decodePackets codecs ps).1 = Except.ok () ∧
      (r.decodePackets codecs ps).2.block_buffer =
        ps.flatMap (decodedBatches codecs r.schema) ∧
      ((r.decodePackets codecs ps).2.nextBlocks
          (ps.flatMap (decodedBatches codecs r.schema)).length).1 =
        (ps.flatMap (decodedBatches codecs r.schema)).map NextBlockResult.returned ∧
      ((r.decodePackets codecs ps).2.nextBlocks
          (ps.flatMap (decodedBatches codecs r.schema)).length).2.block_buffer = [] ∧
      ∀ blk, (((r.decodePackets codecs ps).2.nextBlocks
          (ps.flatMap (decodedBatches codecs r.schema)).length).2.nextBlock).1 =
            NextBlockResult.returned blk → blk = Block.empty := by
  obtain ⟨a, b, c⟩ := decodePackets_supported codecs ps hs r
  rw [hq, List.nil_append] at b
  rw [he] at c
  obtain ⟨d1, d2, d3, -⟩ := nextBlocks_drain _ (r.decodePackets codecs ps).2 c b
  refine ⟨a, b, d1, d2, ?_⟩
  intro blk hb
  rw [nextBlock_eq] at hb
  simp only [init_meet_error, d3, init_block_buffer, d2] at hb
  split at hb
  · cases hb
  · simp at hb
    exact hb.symm

/-- C5 on two packets, one chunk then two chunks: three calls return the three
decoded batches, the first packet's batch ahead of the second packet's two. -/
theorem decodePackets_then_nextBlocks_witness :
    (sampleReceiver.decodePackets sampleCodecs [samplePacketOne, samplePacketTwo]).1 =
        Except.ok () ∧
      ((sampleReceiver.decodePackets sampleCodecs
          [samplePacketOne, samplePacketTwo]).2.nextBlocks 3).1 =
        [NextBlockResult.returned (sampleBlock [2, 1, 2, 3]),
          NextBlockResult.returned (sampleBlock [1, 4]),
          NextBlockResult.returned (sampleBlock [1, 5, 6])] :=
  ⟨(decodePackets_then_nextBlocks sampleCodecs sampleReceiver
      [samplePacketOne, samplePacketTwo] rfl rfl (by decide)).1,
    (decodePackets_then_nextBlocks sampleCodecs sampleReceiver
      [samplePacketOne, samplePacketTwo] rfl rfl (by decide)).2.2.1⟩

/-- C6, as stated, fails: a packet without chunks makes `decodePacket` signal
the condition variable zero times, and a packet with two chunks twice. -/
theorem decodePacket_signals_once_counterexample :
    sampleReceiver.signals = 0 ∧
      (sampleReceiver.decodePacket sampleCodecs samplePacketEmpty).2.signals = 0 ∧
      (sampleReceiver.decodePacket sampleCodecs samplePacketTwo).2.signals = 2 := by
  decide

/-- C6, amended: `decodePacket` signals the condition variable once per batch it
pushes, that is `k` times for a packet with a supported tag and `k` chunks (not
at all for `k = 0`), and not at all for a packet with an unsupported tag. -/
theorem decodePacket_signals_per_batch (codecs : ChunkCodecs) (r : ExchangeReceiver)
    (p : mpp.MPPDataPacket) :
    (r.decodePacket codecs p).2.signals =
        r.signals + (if supportedEncodeType p.data.encode_type = true
          then p.data.chunks.length else 0) ∧
      (r.decodePacket codecs p).2.block_buffer.length =
        r.block_buffer.length + (if supportedEncodeType p.data.encode_type = true
          then p.data.chunks.length else 0) := by
  by_cases hs : supportedEncodeType p.data.encode_type = true
  · rw [decodePacket_supported codecs r p hs]
    have hl : (decodedBatches codecs r.schema p).length = p.data.chunks.length := by
      unfold decodedBatches
      split <;> simp_all [supportedEncodeType]
    simp [hs, ExchangeReceiver.signals, List.count_append, List.count_replicate, hl]
  · have hs2 : supportedEncodeType p.data.encode_type = false := by simpa using hs
    rw [decodePacket_unsupported codecs r p hs2]
    split <;> simp [hs2]

/-- C7, as stated, fails: a packet with an unsupported tag and zero chunks makes
`decodePacket` return normally. -/
theorem decodePacket_unsupported_empty_counterexample :
    supportedEncodeType samplePacketBadEmpty.data.encode_type = false ∧
      samplePacketBadEmpty.data.chunks.length = 0 ∧
      (sampleReceiver.decodePacket sampleCodecs samplePacketBadEmpty).1 = Except.ok () :=
  ⟨rfl, rfl, rfl⟩

/-- C7, amended: for a packet whose tag is none of the supported ones,
`decodePacket` throws "Unsupported encode type" when the packet carries at least
one chunk, and returns normally when it carries none. -/
theorem decodePacket_unsupported_tag (codecs : ChunkCodecs) (r : ExchangeReceiver)
    (p : mpp.MPPDataPacket) (hs : supportedEncodeType p.data.encode_type = false) :
    (r.decodePacket codecs p).1 =
      if p.data.chunks = [] then Except.ok ()
      else Except.error ⟨"Unsupported encode type", ErrorCode.LOGICAL_ERROR⟩ := by
  rw [decodePacket_unsupported codecs r p hs]
  split <;> rfl

/-- C7, amended, on a packet with an unsupported tag and one chunk. -/
theorem decodePacket_unsupported_tag_witness :
    supportedEncodeType samplePacketBad.data.encode_type = false ∧
      (sampleReceiver.decodePacket sampleCodecs samplePacketBad).1 =
        Except.error ⟨"Unsupported encode type", ErrorCode.LOGICAL_ERROR⟩ :=
  ⟨rfl, decodePacket_unsupported_tag sampleCodecs sampleReceiver samplePacketBad rfl⟩

/-! ## Initialization -/

/-- What the first `init` appends to the history: the `sendAsyncReq` call, one
request per sender task, one thread start. -/
theorem init_history (r : ExchangeReceiver) (h : r.inited = false) :
    r.init.history = r.history ++ [Effect.sendAsyncReq] ++
      (List.range r.pb_exchange_receiver.encoded_task_meta.length).map Effect.asyncReq ++
      [Effect.threadStart ThreadEntry.proceedAsyncReq] ∧
    r.init.workers = r.workers ++ [ThreadEntry.proceedAsyncReq] := by
  simp [ExchangeReceiver.init, ExchangeReceiver.sendAsyncReq, h]

theorem init_init (r : ExchangeReceiver) : r.init.init = r.init :=
  init_of_inited r.init (init_inited r)

theorem init_iterate (r : ExchangeReceiver) (k : Nat) :
    ExchangeReceiver.init^[k + 1] r = r.init := by
  rw [Function.iterate_succ_apply]
  exact Function.iterate_fixed (init_init r) k

/-- C8: `init` is idempotent: in every state a second `init` changes nothing, so
any number `k + 1 >= 1` of calls leaves the state of a single call; these calls
start one multiplexer thread and invoke `sendAsyncReq` once when the receiver was
uninitialized (none when it already was), and on a freshly constructed receiver
the whole history is one `sendAsyncReq` call, one request per sender task and
one thread start. -/
theorem init_idempotent (r : ExchangeReceiver) (k : Nat)
    (fieldTypeToColumnInfo : tipb.FieldType → ColumnInfo) (exc : tipb.ExchangeReceiver)
    (task_meta_ : mpp.TaskMeta) :
    r.init.init = r.init ∧
      ExchangeReceiver.init^[k + 1] r = r.init ∧
      (ExchangeReceiver.init^[k + 1] r).threadsStarted =
        r.threadsStarted + (if r.inited = true then 0 else 1) ∧
      (ExchangeReceiver.init^[k + 1] r).sendAsyncReqCalls =
        r.sendAsyncReqCalls + (if r.inited = true then 0 else 1) ∧
      (ExchangeReceiver.init^[k + 1] r).workers.length =
        r.workers.length + (if r.inited = true then 0 else 1) ∧
      (ExchangeReceiver.init^[k + 1]
          (ExchangeReceiver.new fieldTypeToColumnInfo exc task_meta_)).history =
        [Effect.sendAsyncReq] ++
          (List.range exc.encoded_task_meta.length).map Effect.asyncReq ++
          [Effect.threadStart ThreadEntry.proceedAsyncReq] ∧
      (∀ i : Nat, (ExchangeReceiver.init^[k + 1]
          (ExchangeReceiver.new fieldTypeToColumnInfo exc task_meta_)).requestsIssued i =
        if i < exc.encoded_task_meta.length then 1 else 0) ∧
      (ExchangeReceiver.init^[k + 1]
          (ExchangeReceiver.new fieldTypeToColumnInfo exc task_meta_)).threadsStarted = 1 ∧
      (ExchangeReceiver.init^[k + 1]
          (ExchangeReceiver.new fieldTypeToColumnInfo exc task_meta_)).sendAsyncReqCalls = 1 ∧
      (ExchangeReceiver.init^[k + 1]
          (ExchangeReceiver.new fieldTypeToColumnInfo exc task_meta_)).workers =
        [ThreadEntry.proceedAsyncReq] := by
  have hcount : ∀ (e : Effect) (n : Nat), (∀ i, e ≠ Effect.asyncReq i) →
      List.count e ((List.range n).map Effect.asyncReq) = 0 := by
    intro e n hne
    rw [List.count_eq_zero]
    intro hmem
    obtain ⟨i, -, hi⟩ := List.mem_map.mp hmem
    exact hne i hi.symm
  have hfresh : (ExchangeReceiver.new fieldTypeToColumnInfo exc task_meta_).inited = false := rfl
  obtain ⟨fh, fw⟩ := init_history _ hfresh
  have fh2 : (ExchangeReceiver.new fieldTypeToColumnInfo exc task_meta_).init.history =
      [Effect.sendAsyncReq] ++
        (List.range exc.encoded_task_meta.length).map Effect.asyncReq ++
        [Effect.threadStart ThreadEntry.proceedAsyncReq] := by
    rw [fh]; rfl
  have fw2 : (ExchangeReceiver.new fieldTypeToColumnInfo exc task_meta_).init.workers =
      [ThreadEntry.proceedAsyncReq] := by
    rw [fw]; rfl
  simp only [init_iterate]
  have hreq : ∀ i n : Nat,
      List.count (Effect.asyncReq i) ((List.range n).map Effect.asyncReq) =
        if i < n then 1 else 0 := by
    intro i n
    have hinj : Function.Injective Effect.asyncReq := by
      intro a b hab
      cases hab
      rfl
    rw [List.count_map_of_injective _ _ hinj, List.count_eq_of_nodup (List.nodup_range n)]
    simp [List.mem_range]
  refine ⟨init_init r, trivial, ?_, ?_, ?_, fh2, ?_, ?_, ?_, fw2⟩
  · by_cases h : r.inited = true
    · simp [h, init_of_inited]
    · have h2 : r.inited = false := by simpa using h
      simp [ExchangeReceiver.threadsStarted, (init_history r h2).1, h2, List.count_append,
        hcount]
  · by_cases h : r.inited = true
    · simp [h, init_of_inited]
    · have h2 : r.inited = false := by simpa using h
      simp [ExchangeReceiver.sendAsyncReqCalls, (init_history r h2).1, h2, List.count_append,
        hcount]
  · by_cases h : r.inited = true
    · simp [h, init_of_inited]
    · have h2 : r.inited = false := by simpa using h
      simp [(init_history r h2).2, h2]
  · intro i
    simp only [ExchangeReceiver.requestsIssued, fh2, List.count_append, hreq]
    simp
  · simp [ExchangeReceiver.threadsStarted, fh2, List.count_append, hcount]
  · simp [ExchangeReceiver.sendAsyncReqCalls, fh2, List.count_append, hcount]

/-! ## The error latch -/

/-- With the latch set, `nextBlock` throws from the state its implicit `init`
produced and modifies nothing itself. -/
theorem nextBlock_latched_eq (r : ExchangeReceiver) (h : r.meet_error = true) :
    r.nextBlock = (NextBlockResult.thrown r.err, r.init) := by
  rw [nextBlock_eq]
  simp [ExchangeReceiver.waitPredicate, init_meet_error, init_err, h]

/-- C9: with the error latch set, the `nextBlock` call that throws leaves the
queue, the latch and the retained error as they were and, on an initialized
receiver, the whole state including the live-call count (on an uninitialized one
it leaves the state its implicit `init` produced); a second call throws the same
retained error and again changes nothing. -/
theorem nextBlock_latched_frame (r : ExchangeReceiver) (h : r.meet_error = true) :
    r.nextBlock.1 = NextBlockResult.thrown r.err ∧
      r.nextBlock.2.block_buffer = r.block_buffer ∧
      r.nextBlock.2.meet_error = true ∧
      r.nextBlock.2.err = r.err ∧
      r.nextBlock.2 = r.init ∧
      (r.inited = true →
        r.nextBlock.2.live_connections = r.live_connections ∧ r.nextBlock.2 = r) ∧
      r.nextBlock.2.nextBlock = (NextBlockResult.thrown r.err, r.nextBlock.2) := by
  have e := nextBlock_latched_eq r h
  have h2 : r.init.meet_error = true := by rw [init_meet_error, h]
  have e2 := nextBlock_latched_eq r.init h2
  rw [init_init, init_err] at e2
  rw [e]
  refine ⟨rfl, init_block_buffer r, h2, init_err r, rfl, ?_, e2⟩
  intro hi
  simp only [init_of_inited r hi, and_self]

/-- C9 at an initialized receiver with a latched transport error, two queued
batches and two open calls: both calls throw that error, the state stays. -/
theorem nextBlock_latched_frame_witness :
    sampleLatched.nextBlock = (NextBlockResult.thrown ⟨"transport error", ErrorCode.other 1⟩,
        sampleLatched) ∧
      sampleLatched.nextBlock.2.live_connections = 2 ∧
      sampleLatched.nextBlock.2.nextBlock =
        (NextBlockResult.thrown ⟨"transport error", ErrorCode.other 1⟩, sampleLatched) := by
  obtain ⟨a, -, -, -, -, f, g⟩ := nextBlock_latched_frame sampleLatched rfl
  have hs := (f rfl).2
  rw [hs] at g
  exact ⟨Prod.ext a hs, by rw [hs]; decide, g⟩

/-- The latch fields after `nextBlock`, whatever the call does. -/
theorem nextBlock_latch (r : ExchangeReceiver) :
    r.nextBlock.2.meet_error = r.meet_error ∧ r.nextBlock.2.err = r.err := by
  rw [nextBlock_eq]
  split
  · exact ⟨init_meet_error r, init_err r⟩
  · split
    · exact ⟨init_meet_error r, init_err r⟩
    · split
      · exact ⟨init_meet_error r, init_err r⟩
      · exact ⟨init_meet_error r, init_err r⟩

/-- The latch fields after `decodePacket`, whether it returns or throws. -/
theorem decodePacket_latch (codecs : ChunkCodecs) (r : ExchangeReceiver)
    (p : mpp.MPPDataPacket) :
    (r.decodePacket codecs p).2.meet_error = r.meet_error ∧
      (r.decodePacket codecs p).2.err = r.err := by
  by_cases hs : supportedEncodeType p.data.encode_type = true
  · rw [decodePacket_supported codecs r p hs]
    exact ⟨rfl, rfl⟩
  · have hs2 : supportedEncodeType p.data.encode_type = false := by simpa using hs
    rw [decodePacket_unsupported codecs r p hs2]
    split <;> exact ⟨rfl, rfl⟩

/-- Every operation keeps both latch fields. -/
theorem apply_latch (codecs : ChunkCodecs) (op : Operation) (r : ExchangeReceiver) :
    (op.apply codecs r).meet_error = r.meet_error ∧ (op.apply codecs r).err = r.err := by
  cases op with
  | init => exact ⟨init_meet_error r, init_err r⟩
  | nextBlock => exact nextBlock_latch r
  | decodePacket p => exact decodePacket_latch codecs r p
  | getOutputSchema => exact ⟨rfl, rfl⟩

/-- C10: the error latch is monotone: in a state where `meet_error` is true,
each of `init`, `nextBlock`, `decodePacket` and `getOutputSchema` leaves
`meet_error` true and `err` unchanged, and so does every sequence of them. -/
theorem error_latch_monotone (codecs : ChunkCodecs) (r : ExchangeReceiver)
    (h : r.meet_error = true) :
    (∀ op : Operation,
        (op.apply codecs r).meet_error = true ∧ (op.apply codecs r).err = r.err) ∧
      ∀ ops : List Operation,
        (ops.foldl (fun s op => op.apply codecs s) r).meet_error = true ∧
          (ops.foldl (fun s op => op.apply codecs s) r).err = r.err := by
  constructor
  · intro op
    obtain ⟨a, b⟩ := apply_latch codecs op r
    exact ⟨a.trans h, b⟩
  · intro ops
    induction ops generalizing r with
    | nil => exact ⟨h, rfl⟩
    | cons op ops ih =>
      obtain ⟨a, b⟩ := apply_latch codecs op r
      obtain ⟨c, d⟩ := ih (op.apply codecs r) (a.trans h)
      exact ⟨c, d.trans b⟩

/-- C10 at a latched receiver: after a decode, a pull, an `init` and a schema
read the latch is still set and still holds the transport error. -/
theorem error_latch_monotone_witness :
    sampleLatched.meet_error = true ∧
      ([Operation.decodePacket samplePacketTwo, Operation.nextBlock, Operation.init,
          Operation.getOutputSchema].foldl
        (fun s op => op.apply sampleCodecs s) sampleLatched).meet_error = true ∧
      ([Operation.decodePacket samplePacketTwo, Operation.nextBlock, Operation.init,
          Operation.getOutputSchema].foldl
        (fun s op => op.apply sampleCodecs s) sampleLatched).err =
        ⟨"transport error", ErrorCode.other 1⟩ :=
  ⟨rfl, (error_latch_monotone sampleCodecs sampleLatched rfl).2 _⟩

/-! ## The output schema -/

/-- C11: the schema built by the constructor has one entry per descriptor column
type, in descriptor order; entry `i` is named "exchange_receiver_i" and carries
the column info converted from the `i`-th field type; `getOutputSchema` returns
this list. -/
theorem constructor_schema (fieldTypeToColumnInfo : tipb.FieldType → ColumnInfo)
    (exc : tipb.ExchangeReceiver) (task_meta_ : mpp.TaskMeta) :
    (ExchangeReceiver.new fieldTypeToColumnInfo exc task_meta_).schema.length =
        exc.field_types.length ∧
      (∀ i : Nat, (ExchangeReceiver.new fieldTypeToColumnInfo exc task_meta_).schema[i]? =
        exc.field_types[i]?.map
          (fun ft => ("exchange_receiver_" ++ toString i, fieldTypeToColumnInfo ft))) ∧
      (ExchangeReceiver.new fieldTypeToColumnInfo exc task_meta_).getOutputSchema =
        (ExchangeReceiver.new fieldTypeToColumnInfo exc task_meta_).schema := by
  refine ⟨?_, ?_, rfl⟩
  · simp [ExchangeReceiver.new, List.enum_length]
  · intro i
    simp only [ExchangeReceiver.new, List.getElem?_map, List.getElem?_enum]
    cases exc.field_types[i]? <;> rfl

/-- The schema after `nextBlock`, whatever the call does. -/
theorem nextBlock_schema (r : ExchangeReceiver) : r.nextBlock.2.schema = r.schema := by
  rw [nextBlock_eq]
  split
  · exact init_schema r
  · split
    · exact init_schema r
    · split
      · exact init_schema r
      · exact init_schema r

/-- The schema after `decodePacket`, whether it returns or throws. -/
theorem decodePacket_schema (codecs : ChunkCodecs) (r : ExchangeReceiver)
    (p : mpp.MPPDataPacket) : (r.decodePacket codecs p).2.schema = r.schema := by
  by_cases hs : supportedEncodeType p.data.encode_type = true
  · rw [decodePacket_supported codecs r p hs]
  · have hs2 : supportedEncodeType p.data.encode_type = false := by simpa using hs
    rw [decodePacket_unsupported codecs r p hs2]
    split <;> rfl

/-- Every operation keeps the schema. -/
theorem apply_schema (codecs : ChunkCodecs) (op : Operation) (r : ExchangeReceiver) :
    (op.apply codecs r).schema = r.schema := by
  cases op with
  | init => exact init_schema r
  | nextBlock => exact nextBlock_schema r
  | decodePacket p => exact decodePacket_schema codecs r p
  | getOutputSchema => rfl

/-- C12: `getOutputSchema` returns the same schema after `init`, after a
`nextBlock`, after a `decodePacket` and after any sequence of these operations
as it does before: none of them modifies the schema. -/
theorem getOutputSchema_unchanged (codecs : ChunkCodecs) (r : ExchangeReceiver) :
    r.init.getOutputSchema = r.getOutputSchema ∧
      r.nextBlock.2.getOutputSchema = r.getOutputSchema ∧
      (∀ p : mpp.MPPDataPacket,
        (r.decodePacket codecs p).2.getOutputSchema = r.getOutputSchema) ∧
      ∀ ops : List Operation,
        (ops.foldl (fun s op => op.apply codecs s) r).getOutputSchema =
          r.getOutputSchema := by
  refine ⟨init_schema r, nextBlock_schema r, fun p => decodePacket_schema codecs r p, ?_⟩
  intro ops
  induction ops generalizing r with
  | nil => rfl
  | cons op ops ih =>
    simp only [List.foldl_cons]
    rw [ih (op.apply codecs r)]
    exact apply_schema codecs op r

/-! ## Destruction -/

/-- The actions of a destructor run, in order. -/
theorem destructorActions_eq (r : ExchangeReceiver) :
    r.destructorActions =
      r.workers.map Effect.join ++
        [Effect.clearCalls, Effect.shutdown, Effect.destroyQueue] := by
  simp [ExchangeReceiver.destructorActions, ExchangeReceiver.destructor, List.append_assoc]

/-- C13, as stated, fails: on a receiver with one worker thread the destructor
joins the thread first and shuts the completion queue down two actions later;
the queue is not shut down when the join is made. -/
theorem destructor_shutdown_before_join_counterexample :
    sampleRunning.workers = [ThreadEntry.proceedAsyncReq] ∧
      sampleRunning.grpc_com_queue.is_shutdown = false ∧
      sampleRunning.destructorActions =
        [Effect.join ThreadEntry.proceedAsyncReq, Effect.clearCalls, Effect.shutdown,
          Effect.destroyQueue] ∧
      List.indexOf (Effect.join ThreadEntry.proceedAsyncReq) sampleRunning.destructorActions <
        List.indexOf Effect.shutdown sampleRunning.destructorActions := by
  decide

/-- C13, amended: in the destructor's sequence of actions the joins come first,
one per worker thread in order and none later; the release of the Remote Calls
follows at position `workers.size()`; the completion queue is shut down only
after that, at position `workers.size() + 1`, and not before. -/
theorem destructor_joins_before_shutdown (r : ExchangeReceiver) :
    r.destructorActions.take r.workers.length = r.workers.map Effect.join ∧
      (∀ w, Effect.join w ∉ r.destructorActions.drop r.workers.length) ∧
      r.destructorActions[r.workers.length]? = some Effect.clearCalls ∧
      r.destructorActions[r.workers.length + 1]? = some Effect.shutdown ∧
      Effect.shutdown ∉ r.destructorActions.take (r.workers.length + 1) := by
  rw [destructorActions_eq]
  have hlen : (r.workers.map Effect.join).length = r.workers.length := by simp
  refine ⟨?_, ?_, ?_, ?_, ?_⟩
  · simp [List.take_append_eq_append_take]
  · intro w hmem
    rw [List.drop_append_eq_append_drop, List.drop_of_length_le (le_of_eq hlen)] at hmem
    simp at hmem
  · rw [List.getElem?_append_right (by simp)]
    simp
  · rw [List.getElem?_append_right (by simp)]
    simp
  · have hj : Effect.shutdown ∉ r.workers.map Effect.join := by
      intro hmem
      obtain ⟨w, -, hw⟩ := List.mem_map.mp hmem
      cases hw
    intro hmem
    rw [List.take_append_eq_append_take] at hmem
    rcases List.mem_append.mp hmem with h1 | h2
    · exact hj (List.mem_of_mem_take h1)
    · simp at h2

/-- C14: the destructor joins every worker thread, then releases the Remote
Calls, then shuts down the completion queue, which is destroyed after that; the
calls are gone and nothing is done between these actions. -/
theorem destructor_order (r : ExchangeReceiver) :
    r.destructorActions =
        r.workers.map Effect.join ++ [Effect.clearCalls] ++
          [Effect.shutdown, Effect.destroyQueue] ∧
      r.destructor.exchangeCalls = [] ∧
      r.destructor.grpc_com_queue.is_shutdown = true := by
  refine ⟨?_, rfl, rfl⟩
  rw [destructorActions_eq]
  simp

/-! ## First error wins -/

/-- Once the latch is set, a further reported error changes neither latch nor
retained error. -/
theorem callErrored_latched (r : ExchangeReceiver) (e : Exception)
    (h : r.meet_error = true) :
    (r.callErrored e).meet_error = true ∧ (r.callErrored e).err = r.err := by
  simp [ExchangeReceiver.callErrored, h]

/-- Any number of further reported errors keeps a set latch and its error. -/
theorem callErrored_fold_latched (es : List Exception) :
    ∀ r : ExchangeReceiver, r.meet_error = true →
      (es.foldl (fun s e => s.callErrored e) r).meet_error = true ∧
      (es.foldl (fun s e => s.callErrored e) r).err = r.err := by
  induction es with
  | nil => intro r h; exact ⟨h, rfl⟩
  | cons e es ih =>
    intro r h
    obtain ⟨a, b⟩ := callErrored_latched r e h
    obtain ⟨c, d⟩ := ih (r.callErrored e) a
    exact ⟨c, d.trans b⟩

/-- C15: first error wins: when a Remote Call's failure `e` sets the latch,
failures reported later by other calls do not replace the retained error, and
`nextBlock` then throws `e`. -/
theorem first_error_wins (r : ExchangeReceiver) (e : Exception) (later : List Exception)
    (h : r.meet_error = false) :
    (later.foldl (fun s e2 => s.callErrored e2) (r.callErrored e)).meet_error = true ∧
      (later.foldl (fun s e2 => s.callErrored e2) (r.callErrored e)).err = e ∧
      (later.foldl (fun s e2 => s.callErrored e2) (r.callErrored e)).nextBlock.1 =
        NextBlockResult.thrown e := by
  have h1 : (r.callErrored e).meet_error = true := by simp [ExchangeReceiver.callErrored]
  have h2 : (r.callErrored e).err = e := by simp [ExchangeReceiver.callErrored, h]
  obtain ⟨a, b⟩ := callErrored_fold_latched later (r.callErrored e) h1
  refine ⟨a, b.trans h2, ?_⟩
  rw [nextBlock_latched_eq _ a, b, h2]

/-- C15 on a running receiver: a transport error is reported first, a decode
failure second; the transport error stays latched and is what `nextBlock` throws. -/
theorem first_error_wins_witness :
    ((sampleRunning.callErrored sampleFirstError).callErrored sampleSecondError).err =
        sampleFirstError ∧
      ((sampleRunning.callErrored sampleFirstError).callErrored
          sampleSecondError).nextBlock.1 = NextBlockResult.thrown sampleFirstError :=
  ⟨(first_error_wins sampleRunning sampleFirstError [sampleSecondError] rfl).2.1,
    (first_error_wins sampleRunning sampleFirstError [sampleSecondError] rfl).2.2⟩

/-! ## Decode dispatch -/

/-- C17: for a packet with chunks `c1..ck` and a supported tag, `decodePacket`
returns normally and leaves the old queue followed by exactly `k` new batches,
the `i`-th being chunk `i` decoded under the receiver's schema by the decoder of
the tag: CHBlock codec for `TypeCHBlock`, Arrow codec for `TypeChunk`, default
codec for `TypeDefault`. -/
theorem decodePacket_appends_decoded_chunks (codecs : ChunkCodecs) (r : ExchangeReceiver)
    (chunks : List tipb.Chunk) :
    ((r.decodePacket codecs ⟨⟨tipb.EncodeType.TypeCHBlock, chunks⟩⟩).1 = Except.ok () ∧
        (r.decodePacket codecs ⟨⟨tipb.EncodeType.TypeCHBlock, chunks⟩⟩).2.block_buffer =
          r.block_buffer ++ chunks.map (fun ch => codecs.CHBlockChunkCodec ch r.schema)) ∧
      ((r.decodePacket codecs ⟨⟨tipb.EncodeType.TypeChunk, chunks⟩⟩).1 = Except.ok () ∧
        (r.decodePacket codecs ⟨⟨tipb.EncodeType.TypeChunk, chunks⟩⟩).2.block_buffer =
          r.block_buffer ++ chunks.map (fun ch => codecs.ArrowChunkCodec ch r.schema)) ∧
      ((r.decodePacket codecs ⟨⟨tipb.EncodeType.TypeDefault, chunks⟩⟩).1 = Except.ok () ∧
        (r.decodePacket codecs ⟨⟨tipb.EncodeType.TypeDefault, chunks⟩⟩).2.block_buffer =
          r.block_buffer ++ chunks.map (fun ch => codecs.DefaultChunkCodec ch r.schema)) ∧
      ∀ et : tipb.EncodeType, supportedEncodeType et = true →
        (r.decodePacket codecs ⟨⟨et, chunks⟩⟩).2.block_buffer.length =
          r.block_buffer.length + chunks.length := by
  refine ⟨?_, ?_, ?_, ?_⟩
  · rw [decodePacket_supported codecs r ⟨⟨tipb.EncodeType.TypeCHBlock, chunks⟩⟩ rfl]
    exact ⟨rfl, rfl⟩
  · rw [decodePacket_supported codecs r ⟨⟨tipb.EncodeType.TypeChunk, chunks⟩⟩ rfl]
    exact ⟨rfl, rfl⟩
  · rw [decodePacket_supported codecs r ⟨⟨tipb.EncodeType.TypeDefault, chunks⟩⟩ rfl]
    exact ⟨rfl, rfl⟩
  · intro et hs
    rw [decodePacket_supported codecs r _ hs]
    cases et <;> simp_all [supportedEncodeType, decodedBatches]

/-- C17 on a packet with two chunks in the Arrow encoding, pushed behind two
queued batches: the two decoded batches follow the old ones. -/
theorem decodePacket_appends_decoded_chunks_witness :
    (sampleDrained.decodePacket sampleCodecs samplePacketTwo).2.block_buffer =
        [sampleBlock [1, 2, 3], sampleBlock [4, 5, 6, 7, 8], sampleBlock [1, 4],
          sampleBlock [1, 5, 6]] ∧
      (sampleDrained.decodePacket sampleCodecs samplePacketTwo).2.block_buffer.length =
        sampleDrained.block_buffer.length + 2 :=
  ⟨(decodePacket_appends_decoded_chunks sampleCodecs sampleDrained
      [⟨[4]⟩, ⟨[5, 6]⟩]).2.1.2,
    (decodePacket_appends_decoded_chunks sampleCodecs sampleDrained
      [⟨[4]⟩, ⟨[5, 6]⟩]).2.2.2 tipb.EncodeType.TypeChunk rfl⟩

/-! ## Conversions -/

/-- Dividing twice is dividing by the product. -/
theorem int_ediv_ediv (a b c : Int) (hb : 0 < b) (hc : 0 < c) : a / b / c = a / (b * c) := by
  have key : ∀ x : Int, x ≤ a / b / c ↔ x ≤ a / (b * c) := by
    intro x
    rw [Int.le_ediv_iff_mul_le hc, Int.le_ediv_iff_mul_le hb,
      Int.le_ediv_iff_mul_le (mul_pos hb hc)]
    have e : x * c * b = x * (b * c) := by ring
    rw [e]
  exact le_antisymm ((key _).mp le_rfl) ((key _).mpr le_rfl)

/-- Rounding half up read off the digit `d` that follows the kept digits `q`. -/
theorem round_digit (q d P r : Int) (hP : 0 < P) (hd0 : 0 ≤ d) (hd1 : d < 10)
    (hr0 : 0 ≤ r) (hr : r < P) :
    (2 * ((10 * q + d) * P + r) + 10 * P) / (2 * (10 * P)) =
      q + (if d ≥ 5 then 1 else 0) := by
  have hpos : (0 : Int) < 2 * (10 * P) := by positivity
  by_cases h5 : d ≥ 5
  · simp only [h5, if_true]
    apply le_antisymm
    · have : (2 * ((10 * q + d) * P + r) + 10 * P) / (2 * (10 * P)) < q + 1 + 1 := by
        rw [Int.ediv_lt_iff_lt_mul hpos]
        nlinarith
      omega
    · rw [Int.le_ediv_iff_mul_le hpos]
      nlinarith
  · simp only [h5, if_false]
    have h4 : d ≤ 4 := by omega
    apply le_antisymm
    · have : (2 * ((10 * q + d) * P + r) + 10 * P) / (2 * (10 * P)) < q + 0 + 1 := by
        rw [Int.ediv_lt_iff_lt_mul hpos]
        nlinarith
      omega
    · rw [Int.le_ediv_iff_mul_le hpos]
      nlinarith

/-- Before its last round the scale loop only drops digits of a non-negative
value. -/
theorem decScaleLoop_prefix (scale : Nat) (v : Int) (hv : 0 ≤ v) :
    ∀ m : Nat, m < scale →
      (List.range m).foldl
        (fun v i => Int.tdiv v 10 +
          (if i + 1 == scale && decide (Int.tmod v 10 ≥ 5) then 1 else 0)) v = v / 10 ^ m := by
  intro m
  induction m with
  | zero => intro _; simp
  | succ m ih =>
    intro hm
    have hne : ¬ (m + 1 = scale) := by omega
    have hw : 0 ≤ v / 10 ^ m := Int.ediv_nonneg hv (by positivity)
    rw [List.range_succ, List.foldl_append, ih (by omega)]
    simp only [List.foldl_cons, List.foldl_nil]
    have hc : ((m + 1 == scale) && decide ((v / 10 ^ m).tmod 10 ≥ 5)) = false := by
      simp [hne]
    rw [hc, Int.tdiv_eq_ediv hw (by norm_num),
      int_ediv_ediv _ _ _ (by positivity) (by norm_num)]
    simp [pow_succ]

/-- On a non-negative value the scale loop rounds `v / 10 ^ scale` to the nearest
integer, halves up. -/
theorem decScaleLoop_nonneg (scale : Nat) (v : Int) (hv : 0 ≤ v) :
    decScaleLoop scale v = (2 * v + 10 ^ scale) / (2 * 10 ^ scale) := by
  cases scale with
  | zero =>
    simp [decScaleLoop]
    omega
  | succ n =>
    have hP : (0 : Int) < 10 ^ n := by positivity
    have hw : 0 ≤ v / 10 ^ n := Int.ediv_nonneg hv (le_of_lt hP)
    unfold decScaleLoop
    rw [List.range_succ, List.foldl_append, decScaleLoop_prefix (n + 1) v hv n (by omega)]
    simp only [List.foldl_cons, List.foldl_nil, beq_self_eq_true, Bool.true_and]
    rw [Int.tdiv_eq_ediv hw (by norm_num), Int.tmod_eq_emod hw (by norm_num)]
    have h1 := Int.ediv_add_emod v (10 ^ n)
    have h2 := Int.emod_nonneg v (ne_of_gt hP)
    have h3 := Int.emod_lt_of_pos v hP
    have h4 := Int.ediv_add_emod (v / 10 ^ n) 10
    have h5 := Int.emod_nonneg (v / 10 ^ n) (by norm_num : (10 : Int) ≠ 0)
    have h6 := Int.emod_lt_of_pos (v / 10 ^ n) (by norm_num : (0 : Int) < 10)
    have hd := round_digit (v / 10 ^ n / 10) (v / 10 ^ n % 10) (10 ^ n) (v % 10 ^ n) hP h5 h6 h2 h3
    have e1 : (10 * (v / 10 ^ n / 10) + v / 10 ^ n % 10) * 10 ^ n + v % 10 ^ n = v := by
      rw [h4, mul_comm]; exact h1
    rw [e1] at hd
    have e2 : (10 : Int) ^ (n + 1) = 10 * 10 ^ n := by ring
    rw [e2, hd]
    simp

/-- On a non-negative decimal `decToInt` agrees with the reference: the value
rounded half up and clamped to the target type. -/
theorem decToInt_nonneg (bits : Nat) (value : DecimalField) (hv : 0 ≤ value.value) :
    decToInt bits value = decToIntReference bits value := by
  have hl := decScaleLoop_nonneg value.scale value.value hv
  have hr : roundHalfAwayFromZero value.value value.scale =
      (2 * value.value + 10 ^ value.scale) / (2 * 10 ^ value.scale) := by
    simp [roundHalfAwayFromZero, hv]
  have h0 : 0 ≤ (2 * value.value + 10 ^ value.scale) / (2 * 10 ^ value.scale) :=
    Int.ediv_nonneg (by positivity) (by positivity)
  have hmax : 0 ≤ signedMax bits := by
    unfold signedMax
    have : (0 : Int) < 2 ^ (bits - 1) := by positivity
    omega
  have hmin : signedMin bits ≤ 0 := by
    unfold signedMin
    have : (0 : Int) ≤ 2 ^ (bits - 1) := by positivity
    omega
  unfold decToInt decToIntReference
  rw [hl, hr]
  generalize (2 * value.value + 10 ^ value.scale) / (2 * 10 ^ value.scale) = w at h0
  by_cases hgt : w > signedMax bits
  · have hpos : w > 0 := by omega
    simp only [hgt, decide_True, Bool.true_or, if_true, hpos]
    rw [min_eq_left (le_of_lt hgt), max_eq_right (by omega)]
  · have hlt : ¬ w < signedMin bits := by omega
    simp only [hgt, hlt, decide_False, Bool.or_self, Bool.false_eq_true, if_false]
    rw [min_eq_right (by omega), max_eq_right (by omega)]

/-- On every column with at least one row the string branch stores past the end
of the empty offsets array in its first round and yields no column. -/
theorem castStringAsString_nonempty (tp : tipb.FieldType) (col_from : ColumnString)
    (h : 0 < col_from.size) : castStringAsString tp col_from = none := by
  obtain ⟨n, hn⟩ : ∃ n, col_from.size = n + 1 := ⟨col_from.size - 1, by omega⟩
  unfold castStringAsString castStringAsStringLoop
  rw [hn, List.range_succ_eq_map]
  simp [List.foldlM_cons, castStringAsStringStep, arrayStore]

/-- C19: for 2020-01-02 03:04:05 the cast stores 20200100203405, while the
digits YYYYMMDDhhmmss read 20200102030405: the day is multiplied by 100000 and
the hour by 1000. -/
theorem castDateTimeAsInt_sample :
    castDateTimeAsInt sampleDateTime = 20200100203405 ∧
      dateTimeDigits sampleDateTime = 20200102030405 ∧
      castDateTimeAsInt sampleDateTime ≠ dateTimeDigits sampleDateTime := by
  decide

/-- C20: for the decimal -1.5 `decToInt` returns -1, while rounding halves away
from zero (and clamping to 64 bits) gives -2; for 1.5 both give 2. -/
theorem decToInt_negative_half :
    decToInt 64 sampleDecimal = -1 ∧
      decToIntReference 64 sampleDecimal = -2 ∧
      decToInt 64 ⟨15, 1⟩ = 2 ∧
      decToIntReference 64 ⟨15, 1⟩ = 2 := by
  decide

/-- C21: for the decimal -0.5 (raw value -5, scale 1) converted to scale 0 the
code returns 1, while rounding halves away from zero gives -1: after the
truncating division the value is 0, the sign is lost and the rounding step adds
1.  For -1.5 and for 0.5 code and reference agree. -/
theorem ToTiDBDecimal_negative_below_one :
    ToTiDBDecimalFromDecimal (-5) 1 10 0 false false = 1 ∧
      decimalToDecimalReference (-5) 1 10 0 = -1 ∧
      ToTiDBDecimalFromDecimal (-15) 1 10 0 false false = -2 ∧
      decimalToDecimalReference (-15) 1 10 0 = -2 ∧
      ToTiDBDecimalFromDecimal 5 1 10 0 false false = 1 ∧
      decimalToDecimalReference 5 1 10 0 = 1 := by
  decide

/-! ## Waiting and implicit initialization -/

/-- C22, as stated, fails in its last clause: on a receiver whose descriptor has
no output column, after a packet with two chunks the queue holds two batches
without columns and one call is still open; `nextBlock` returns an empty block,
the value that reports end-of-stream, while the live-call count is 1. -/
theorem nextBlock_empty_while_open_counterexample :
    (sampleNoColumns.decodePacket schemaCodecs samplePacketTwo).2.inited = true ∧
      (sampleNoColumns.decodePacket schemaCodecs samplePacketTwo).2.block_buffer =
        [Block.empty, Block.empty] ∧
      (sampleNoColumns.decodePacket schemaCodecs samplePacketTwo).2.meet_error = false ∧
      (sampleNoColumns.decodePacket schemaCodecs samplePacketTwo).2.live_connections = 1 ∧
      (sampleNoColumns.decodePacket schemaCodecs samplePacketTwo).2.nextBlock.1 =
        NextBlockResult.returned Block.empty ∧
      (sampleNoColumns.decodePacket schemaCodecs samplePacketTwo).2.nextBlock.2.live_connections
        = 1 := by
  decide

/-- C22, amended: `nextBlock` does not return while, after its implicit `init`,
the queue is empty, the live-call count is non-zero and no error is latched;
whenever it produces a result the wait predicate (queue non-empty, or live count
zero, or error latched) holds; a returned block is either the end-of-stream
marker, returned from an empty queue with a live-call count of zero and the
state untouched, or the batch at the front of the queue, which is removed; so
while a call is still open every returned block, an empty one included, is the
batch that was at the front of the queue. -/
theorem nextBlock_waits_for_predicate (r : ExchangeReceiver) :
    (r.init.block_buffer = [] → r.init.live_connections ≠ 0 → r.init.meet_error = false →
        r.nextBlock = (NextBlockResult.waiting, r.init)) ∧
      (r.nextBlock.1 ≠ NextBlockResult.waiting →
        r.init.block_buffer ≠ [] ∨ r.init.live_connections = 0 ∨ r.init.meet_error = true) ∧
      (∀ blk, r.nextBlock.1 = NextBlockResult.returned blk →
        r.init.meet_error = false ∧
        ((r.init.block_buffer = [] ∧ r.init.live_connections = 0 ∧ blk = Block.empty ∧
            r.nextBlock.2 = r.init) ∨
          ∃ rest, r.init.block_buffer = blk :: rest ∧
            r.nextBlock.2 = { r.init with block_buffer := rest })) ∧
      ∀ blk, r.nextBlock.1 = NextBlockResult.returned blk → r.init.live_connections ≠ 0 →
        ∃ rest, r.init.block_buffer = blk :: rest ∧ r.nextBlock.2.block_buffer = rest := by
  have h3 : ∀ blk, r.nextBlock.1 = NextBlockResult.returned blk →
      r.init.meet_error = false ∧
      ((r.init.block_buffer = [] ∧ r.init.live_connections = 0 ∧ blk = Block.empty ∧
          r.nextBlock.2 = r.init) ∨
        ∃ rest, r.init.block_buffer = blk :: rest ∧
          r.nextBlock.2 = { r.init with block_buffer := rest }) := by
    intro blk hb
    have he : r.init.meet_error = false := by
      by_contra hcon
      have ht : r.init.meet_error = true := by simpa using hcon
      rw [nextBlock_eq] at hb
      simp [ExchangeReceiver.waitPredicate, ht] at hb
    refine ⟨he, ?_⟩
    cases hq : r.init.block_buffer with
    | nil =>
      left
      by_cases hl : r.init.live_connections = 0
      · have hn : r.nextBlock = (NextBlockResult.returned Block.empty, r.init) := by
          rw [nextBlock_eq]
          simp [ExchangeReceiver.waitPredicate, hq, he, hl]
        rw [hn] at hb ⊢
        have hblk : Block.empty = blk := NextBlockResult.returned.inj hb
        exact ⟨rfl, hl, hblk.symm, rfl⟩
      · exfalso
        rw [nextBlock_eq] at hb
        simp [ExchangeReceiver.waitPredicate, hq, he, hl] at hb
    | cons front rest =>
      right
      have hn : r.nextBlock =
          (NextBlockResult.returned front, { r.init with block_buffer := rest }) := by
        rw [nextBlock_eq]
        simp [ExchangeReceiver.waitPredicate, hq, he]
      rw [hn] at hb ⊢
      have hblk : front = blk := NextBlockResult.returned.inj hb
      exact ⟨rest, by rw [hblk], rfl⟩
  refine ⟨?_, ?_, h3, ?_⟩
  · intro hq hl he
    rw [nextBlock_eq]
    simp [ExchangeReceiver.waitPredicate, hq, hl, he]
  · intro hw
    by_contra hcon
    push_neg at hcon
    obtain ⟨hq, hl, he⟩ := hcon
    apply hw
    rw [nextBlock_eq]
    simp [ExchangeReceiver.waitPredicate, hq, hl, he]
  · intro blk hb hl
    rcases (h3 blk hb).2 with ⟨-, hz, -, -⟩ | ⟨rest, hq, hpost⟩
    · exact absurd hz hl
    · exact ⟨rest, hq, by rw [hpost]⟩

/-- C22, amended, on a running receiver with an empty queue, two open calls and
no error: the call stays in its wait. -/
theorem nextBlock_waits_for_predicate_witness :
    sampleRunning.block_buffer = [] ∧ sampleRunning.live_connections = 2 ∧
      sampleRunning.meet_error = false ∧
      sampleRunning.nextBlock = (NextBlockResult.waiting, sampleRunning.init) :=
  ⟨rfl, by decide, rfl,
    (nextBlock_waits_for_predicate sampleRunning).1 rfl (by decide) rfl⟩

/-- The history, the workers and the flag after `nextBlock` are those after its
implicit `init`. -/
theorem nextBlock_effects (r : ExchangeReceiver) :
    r.nextBlock.2.history = r.init.history ∧ r.nextBlock.2.workers = r.init.workers ∧
      r.nextBlock.2.inited = true := by
  rw [nextBlock_eq]
  split
  · exact ⟨rfl, rfl, init_inited r⟩
  · split
    · exact ⟨rfl, rfl, init_inited r⟩
    · split
      · exact ⟨rfl, rfl, init_inited r⟩
      · exact ⟨rfl, rfl, init_inited r⟩

/-- The history after `init`, for either value of the flag. -/
theorem init_history_cases (r : ExchangeReceiver) :
    r.init.history = if r.inited = true then r.history
      else r.history ++ [Effect.sendAsyncReq] ++
        (List.range r.pb_exchange_receiver.encoded_task_meta.length).map Effect.asyncReq ++
        [Effect.threadStart ThreadEntry.proceedAsyncReq] := by
  by_cases h : r.inited = true
  · simp [h, init_of_inited]
  · have h2 : r.inited = false := by simpa using h
    simp [h2, (init_history r h2).1]

/-- No request marker is a thread start or a `sendAsyncReq` call. -/
theorem count_asyncReq_zero (e : Effect) (n : Nat) (hne : ∀ i, e ≠ Effect.asyncReq i) :
    List.count e ((List.range n).map Effect.asyncReq) = 0 := by
  rw [List.count_eq_zero]
  intro hmem
  obtain ⟨i, -, hi⟩ := List.mem_map.mp hmem
  exact hne i hi.symm

/-- C23: `nextBlock` on an uninitialized receiver is `init` followed by
`nextBlock` on the initialized state; the call invokes `sendAsyncReq` once and
starts one multiplexer thread when the receiver was uninitialized, and issues no
request and starts no thread when it was initialized already. -/
theorem nextBlock_performs_init (r : ExchangeReceiver) :
    r.nextBlock = r.init.nextBlock ∧
      r.nextBlock.2.inited = true ∧
      r.nextBlock.2.history =
        (if r.inited = true then r.history
          else r.history ++ [Effect.sendAsyncReq] ++
            (List.range r.pb_exchange_receiver.encoded_task_meta.length).map
              Effect.asyncReq ++
            [Effect.threadStart ThreadEntry.proceedAsyncReq]) ∧
      r.nextBlock.2.workers =
        (if r.inited = true then r.workers
          else r.workers ++ [ThreadEntry.proceedAsyncReq]) ∧
      r.nextBlock.2.threadsStarted =
        r.threadsStarted + (if r.inited = true then 0 else 1) ∧
      r.nextBlock.2.sendAsyncReqCalls =
        r.sendAsyncReqCalls + (if r.inited = true then 0 else 1) := by
  obtain ⟨hh, hw, hi⟩ := nextBlock_effects r
  have hc := init_history_cases r
  refine ⟨?_, hi, hh.trans hc, ?_, ?_, ?_⟩
  · rw [nextBlock_eq r, nextBlock_eq r.init, init_init]
  · rw [hw]
    by_cases h : r.inited = true
    · simp [h, init_of_inited]
    · have h2 : r.inited = false := by simpa using h
      simp [h2, (init_history r h2).2]
  · unfold ExchangeReceiver.threadsStarted
    rw [hh, hc]
    by_cases h : r.inited = true
    · simp [h]
    · simp [h, List.count_append, count_asyncReq_zero]
  · unfold ExchangeReceiver.sendAsyncReqCalls
    rw [hh, hc]
    by_cases h : r.inited = true
    · simp [h]
    · simp [h, List.count_append, count_asyncReq_zero]

/-! ## The cast dispatch -/

/-- The chain on the destination type succeeds exactly on the supported
destinations and otherwise throws `CANNOT_CONVERT_TYPE`. -/
theorem createWrapperFor_cases (m : DataTypeMethods) (source : FromDataType)
    (return_nullable : Bool) (to_type : IDataType) :
    (isCastDestination to_type = true ∧
        ∃ w, createWrapperFor m source return_nullable to_type = Except.ok w) ∨
      (isCastDestination to_type = false ∧
        ∃ e, createWrapperFor m source return_nullable to_type = Except.error e ∧
          e.code = ErrorCode.CANNOT_CONVERT_TYPE) := by
  cases to_type <;> simp [createWrapperFor, isCastDestination]

/-- For different types the chain on the source type hands over to the chain on
the destination exactly for the supported sources and otherwise throws
`CANNOT_CONVERT_TYPE`. -/
theorem createWrapper_cases (m : DataTypeMethods) (return_nullable : Bool)
    (from_type to_type : IDataType) (hd : from_type ≠ to_type) :
    (isCastSource from_type = true ∧
        ∃ source, createWrapper m return_nullable from_type to_type =
          createWrapperFor m source return_nullable to_type) ∨
      (isCastSource from_type = false ∧
        ∃ e, createWrapper m return_nullable from_type to_type = Except.error e ∧
          e.code = ErrorCode.CANNOT_CONVERT_TYPE) := by
  have h1 : (from_type == to_type) = false := by simpa using hd
  unfold createWrapper
  simp only [h1, Bool.false_and, Bool.false_eq_true, if_false]
  cases from_type <;> simp [isCastSource] <;> exact ⟨_, rfl⟩

/-- For a source that is not only-null and types that differ once nullability
is stripped, `prepare` is `createWrapper` on the stripped types. -/
theorem prepare_different (m : DataTypeMethods) (from_type to_type : IDataType)
    (hn : m.onlyNull from_type = false)
    (hd : removeNullable from_type ≠ removeNullable to_type) :
    prepare m from_type to_type =
      createWrapper m (removeNullable to_type).isNullable (removeNullable from_type)
        (removeNullable to_type) := by
  have h1 : (removeNullable from_type == removeNullable to_type) = false := by simpa using hd
  unfold prepare prepareImpl
  simp only [hn, Bool.false_eq_true, if_false, h1]
  cases (removeNullable to_type).isNullable <;> simp

/-- C24: for a source type that is not only-null and a pair of types that differ
after nullability is stripped, building the conversion succeeds if and only if
the source is one of UInt8/16/32/64, Int8/16/32/64, Float32/64,
Decimal32/64/128/256, MyDate, MyDateTime, String and the destination one of
UInt64, Int64, Decimal32/64/128/256, Float64, String; for every other pair it
throws an exception with code `CANNOT_CONVERT_TYPE`. -/
theorem cast_dispatch (m : DataTypeMethods) (from_type to_type : IDataType)
    (hn : m.onlyNull from_type = false)
    (hd : removeNullable from_type ≠ removeNullable to_type) :
    ((∃ w, prepare m from_type to_type = Except.ok w) ↔
        (isCastSource (removeNullable from_type) = true ∧
          isCastDestination (removeNullable to_type) = true)) ∧
      (¬ (isCastSource (removeNullable from_type) = true ∧
          isCastDestination (removeNullable to_type) = true) →
        ∃ e, prepare m from_type to_type = Except.error e ∧
          e.code = ErrorCode.CANNOT_CONVERT_TYPE) := by
  rw [prepare_different m from_type to_type hn hd]
  rcases createWrapper_cases m (removeNullable to_type).isNullable _ _ hd with
    ⟨hs, source, hc⟩ | ⟨hs, e, hc, hcode⟩
  · rw [hc]
    rcases createWrapperFor_cases m source (removeNullable to_type).isNullable
        (removeNullable to_type) with ⟨ht, w, hw⟩ | ⟨ht, e, he, hcode⟩
    · rw [hw]
      refine ⟨⟨fun _ => ⟨hs, ht⟩, fun _ => ⟨w, rfl⟩⟩, ?_⟩
      intro hneg
      exact absurd ⟨hs, ht⟩ hneg
    · rw [he]
      refine ⟨⟨?_, ?_⟩, fun _ => ⟨e, rfl, hcode⟩⟩
      · rintro ⟨w, hw⟩
        cases hw
      · rintro ⟨-, ht2⟩
        rw [ht] at ht2
        cases ht2
  · rw [hc]
    refine ⟨⟨?_, ?_⟩, fun _ => ⟨e, rfl, hcode⟩⟩
    · rintro ⟨w, hw⟩
      cases hw
    · rintro ⟨hs2, -⟩
      rw [hs] at hs2
      cases hs2

/-- C24 on a nullable Int32 source cast to Decimal64(10, 2): a decimal
conversion is built. -/
theorem cast_dispatch_witness :
    prepare sampleMethods (IDataType.DataTypeNullable IDataType.DataTypeInt32)
        (IDataType.DataTypeDecimal64 10 2) =
      Except.ok (WrapperType.convertToDecimal FromDataType.DataTypeInt32
        (IDataType.DataTypeDecimal64 10 2) false) ∧
    ((∃ w, prepare sampleMethods (IDataType.DataTypeNullable IDataType.DataTypeInt32)
        (IDataType.DataTypeDecimal64 10 2) = Except.ok w) ↔
      (isCastSource IDataType.DataTypeInt32 = true ∧
        isCastDestination (IDataType.DataTypeDecimal64 10 2) = true)) :=
  ⟨rfl, (cast_dispatch sampleMethods (IDataType.DataTypeNullable IDataType.DataTypeInt32)
    (IDataType.DataTypeDecimal64 10 2) rfl (by decide)).1⟩

/-- C30: for a source type that is not only-null and a destination that equals
it once nullability is stripped from both, the dispatch returns the identity
wrapper, for String and for decimal types like for any other type; run with any
field type (so with any `flen`), the wrapper puts the argument column itself at
the result position and leaves every other position as it is. -/
theorem cast_same_type_identity (m : DataTypeMethods) (from_type to_type : IDataType)
    (hn : m.onlyNull from_type = false)
    (he : removeNullable from_type = removeNullable to_type) :
    prepare m from_type to_type = Except.ok WrapperType.identity ∧
      ∀ (block : CastBlock) (arguments : List Nat) (result : Nat) (in_union : Bool)
        (tidb_tp : tipb.FieldType), result < block.length →
        (identityWrapperExecute block arguments result in_union tidb_tp)[result]? =
            some (block.getD (arguments.headD 0) none) ∧
          ∀ j, j ≠ result →
            (identityWrapperExecute block arguments result in_union tidb_tp)[j]? =
              block[j]? := by
  constructor
  · unfold prepare prepareImpl
    simp [hn, he]
  · intro block arguments result in_union tidb_tp hr
    unfold identityWrapperExecute
    constructor
    · simp [List.getElem?_set, hr]
    · intro j hj
      simp [List.getElem?_set, Ne.symm hj]

/-- C30 on a nullable String source cast to String with target length 1: the
identity wrapper is chosen and the result column is the three-byte argument
column, not a truncation of it. -/
theorem cast_same_type_identity_witness :
    prepare sampleMethods (IDataType.DataTypeNullable IDataType.DataTypeString)
        IDataType.DataTypeString = Except.ok WrapperType.identity ∧
      (identityWrapperExecute
          [some (CastColumn.string sampleUtf8Column), none] [0] 1 false sampleUtf8Type)[1]? =
        some (some (CastColumn.string sampleUtf8Column)) :=
  ⟨(cast_same_type_identity sampleMethods
      (IDataType.DataTypeNullable IDataType.DataTypeString) IDataType.DataTypeString
      rfl rfl).1,
    ((cast_same_type_identity sampleMethods
      (IDataType.DataTypeNullable IDataType.DataTypeString) IDataType.DataTypeString
      rfl rfl).2 [some (CastColumn.string sampleUtf8Column), none] [0] 1 false
      sampleUtf8Type (by decide)).1⟩

/-! ## Conversions to decimal and to unsigned integer, time order, string length -/

/-- C25: on a block with a one-row string column, "cast string as decimal"
leaves the result position without a column, where the claim expects a decimal
column with one row; the decimal source alternative of the same function does
assign a one-row decimal column. -/
theorem castStringAsDecimal_assigns_nothing :
    sampleStringBlock.getD 0 none =
        some (CastColumn.string (ColumnString.ofRows [[49, 46, 53]])) ∧
      (CastColumn.string (ColumnString.ofRows [[49, 46, 53]])).size = 1 ∧
      castStringAsDecimalExecute sampleStringBlock [0] 1 10 2 false false =
        sampleStringBlock ∧
      (castStringAsDecimalExecute sampleStringBlock [0] 1 10 2 false false).getD 1 none =
        none ∧
      castDecimalAsDecimalExecute sampleDecimalBlock [0] 1 10 2 false false =
        some [some (CastColumn.decimal 1 [15]), some (CastColumn.decimal 2 [150])] := by
  decide

/-- C26: for the integer 50, precision 2 and scale 1 the conversion returns the
raw value 500, above `10^2 - 1 = 99`: the range test is made on the value before
it is multiplied by `10^scale`.  The integer 100 is clamped to 99. -/
theorem ToTiDBDecimalInternal_exceeds_precision :
    ToTiDBDecimalInternal 32 50 2 1 = 500 ∧
      DecimalMaxValue.Get 2 = 99 ∧
      ¬ (|ToTiDBDecimalInternal 32 50 2 1| ≤ 10 ^ 2 - 1) ∧
      ToTiDBDecimalFromInt 32 50 2 1 = 500 ∧
      ToTiDBDecimalInternal 32 100 2 1 = 99 := by
  decide

/-- Rounding half up written with a rational floor. -/
theorem floor_half_up (v : Int) (s : Nat) :
    ⌊(v : ℚ) / 10 ^ s + 1 / 2⌋ = (2 * v + 10 ^ s) / (2 * 10 ^ s) := by
  have h : (v : ℚ) / 10 ^ s + 1 / 2 =
      ((2 * v + 10 ^ s : ℤ) : ℚ) / ((2 * 10 ^ s : ℕ) : ℚ) := by
    push_cast
    field_simp
    ring
  rw [h, Rat.floor_intCast_div_natCast]
  push_cast
  rfl

/-- C27: `decToUInt` returns 0 for a negative raw value and otherwise the value
`v / 10^s` rounded half up, `floor(v / 10^s + 1/2)`, or the largest value of the
unsigned target type when the rounded value exceeds it. -/
theorem decToUInt_rounds_and_saturates (bits : Nat) (value : DecimalField) :
    decToUInt bits value =
      if value.value < 0 then 0
      else min ⌊(value.value : ℚ) / 10 ^ value.scale + 1 / 2⌋ (2 ^ bits - 1) := by
  unfold decToUInt
  by_cases hneg : value.value < 0
  · simp [hneg]
  · have hv : 0 ≤ value.value := by omega
    simp only [hneg, if_false]
    rw [decScaleLoop_nonneg value.scale value.value hv, floor_half_up]
    unfold unsignedMax
    by_cases hgt : (2 * value.value + 10 ^ value.scale) / (2 * 10 ^ value.scale) >
        2 ^ bits - 1
    · simp only [hgt, if_true]
      rw [min_eq_right (le_of_lt hgt)]
    · simp only [hgt, if_false]
      rw [min_eq_left (by omega)]

/-- C28: 00:10:00 lies before 01:00:00 on the same day and both are cast to the
same integer; 09:59:59 lies before 10:00:00 and is cast to the larger integer.
The hour is weighted 1000 and the minute 100, so the two overlap. -/
theorem castDateTimeAsInt_not_order_preserving :
    sampleTenPastMidnight.valid = true ∧ sampleOneOClock.valid = true ∧
      sampleTenPastMidnight.before sampleOneOClock = true ∧
      castDateTimeAsInt sampleTenPastMidnight = 20200100101000 ∧
      castDateTimeAsInt sampleOneOClock = 20200100101000 ∧
      sampleBeforeTen.valid = true ∧ sampleTenOClock.valid = true ∧
      sampleBeforeTen.before sampleTenOClock = true ∧
      castDateTimeAsInt sampleBeforeTen = 20200100114959 ∧
      castDateTimeAsInt sampleTenOClock = 20200100110000 := by
  decide

/-- On well-formed text the length loop, started at a character boundary, skips
whole characters: after `n` rounds it stands behind the `n`-th character (or at
the end of the text). -/
theorem charLengthToByteLengthLoop_chars (tail : List Nat) (n : Nat) :
    ∀ (pre : List Nat) (chars : List (List Nat)), wellFormedChars chars →
      charLengthToByteLengthLoop (pre ++ chars.flatten ++ tail)
          (pre.length + chars.flatten.length) n pre.length =
        pre.length + (chars.take n).flatten.length := by
  induction n with
  | zero => intro pre chars _; simp [charLengthToByteLengthLoop]
  | succ n ih =>
    intro pre chars hwf
    cases chars with
    | nil => simp [charLengthToByteLengthLoop]
    | cons ch rest =>
      obtain ⟨b, r, hch, hlen⟩ := hwf ch (List.mem_cons_self _ _)
      have hwf2 : wellFormedChars rest := fun c hc => hwf c (List.mem_cons_of_mem _ hc)
      have hlt : pre.length < pre.length + (ch :: rest).flatten.length := by
        simp [hch]
      have hget : (pre ++ (ch :: rest).flatten ++ tail).getD pre.length 0 = b := by
        rw [hch, List.getD_eq_getElem?_getD]
        have : pre ++ ((b :: r) :: rest).flatten ++ tail =
            pre ++ (b :: (r ++ (rest.flatten ++ tail))) := by simp
        rw [this, List.getElem?_append_right (le_refl _)]
        simp
      have hstep : (if b < 0x80 then 1 else if b < 0xE0 then 2 else if b < 0xF0 then 3 else 4)
          = ch.length := by
        rw [hlen]; rfl
      have e1 : pre ++ (ch :: rest).flatten ++ tail = (pre ++ ch) ++ rest.flatten ++ tail := by
        simp [List.append_assoc]
      have e2 : pre.length + (ch :: rest).flatten.length =
          (pre ++ ch).length + rest.flatten.length := by
        simp; omega
      unfold charLengthToByteLengthLoop
      simp only [hlt, if_true, hget, hstep]
      have := ih (pre ++ ch) rest hwf2
      rw [← e1, ← e2] at this
      simp only [List.length_append] at this
      rw [this]
      simp
      omega


/-- The loop of the string branch on a one-row column, run on an offsets array
of one entry: it writes the first `min(byte_length, org_length)` bytes of the
row and the terminator. -/
theorem castStringAsStringLoop_single_row (tp : tipb.FieldType) (s : List Nat)
    (hs : s.length < 2 ^ 64) :
    castStringAsStringLoop tp (ColumnString.ofRows [s]) [0] =
      some ⟨s.take (min
          (if tp.flen > 0 then
            if tp.charset == "utf8" || tp.charset == "utf8mb4" then
              charLengthToByteLengthFromUTF8 (s ++ [0]) s.length tp.flen.toNat
            else tp.flen.toNat
          else s.length) s.length) ++ [0],
        [(s.take (min
          (if tp.flen > 0 then
            if tp.charset == "utf8" || tp.charset == "utf8mb4" then
              charLengthToByteLengthFromUTF8 (s ++ [0]) s.length tp.flen.toNat
            else tp.flen.toNat
          else s.length) s.length) ++ [0]).length]⟩ := by
  have hsz : toSizeT ((s.length + 1 : Nat) - (0 : Nat) - 1 : Int) = s.length := by
    unfold toSizeT
    have : ((s.length + 1 : Nat) - (0 : Nat) - 1 : Int) = (s.length : Int) := by
      push_cast; ring
    rw [this, Int.emod_eq_of_lt (by positivity) (by exact_mod_cast hs)]
    simp
  have htake : ∀ k, k ≤ s.length → (s ++ [0]).take k = s.take k := by
    intro k hk
    rw [List.take_append_of_le_length hk]
  have hr : List.range 1 = [0] := rfl
  simp only [castStringAsStringLoop, ColumnString.ofRows, ColumnString.size, List.foldl_cons,
    List.foldl_nil, List.nil_append, List.length_nil, zero_add, List.length_singleton,
    hr, List.foldlM_cons, List.foldlM_nil, castStringAsStringStep,
    List.getD_cons_zero, List.drop_zero, hsz]
  rw [htake _ (min_le_right _ _)]
  simp [arrayStore]

/-- With a positive target length `n` and charset utf8 or utf8mb4 the loop, run
on an offsets array of one entry, writes the first `n` characters of a
well-formed one-row text (all of it when it has fewer), cutting no character. -/
theorem castStringAsStringLoop_single_row_utf8 (tp : tipb.FieldType)
    (chars : List (List Nat)) (hwf : wellFormedChars chars)
    (hs : chars.flatten.length < 2 ^ 64) (hflen : tp.flen > 0)
    (hc : tp.charset = "utf8" ∨ tp.charset = "utf8mb4") :
    castStringAsStringLoop tp (ColumnString.ofRows [chars.flatten]) [0] =
      some ⟨(chars.take tp.flen.toNat).flatten ++ [0],
        [(chars.take tp.flen.toNat).flatten.length + 1]⟩ := by
  rw [castStringAsStringLoop_single_row tp _ hs]
  have hcs : (tp.charset == "utf8" || tp.charset == "utf8mb4") = true := by
    rcases hc with h | h <;> simp [h]
  have hbl : charLengthToByteLengthFromUTF8 (chars.flatten ++ [0]) chars.flatten.length
      tp.flen.toNat = (chars.take tp.flen.toNat).flatten.length := by
    have := charLengthToByteLengthLoop_chars [0] tp.flen.toNat [] chars hwf
    simpa [charLengthToByteLengthFromUTF8] using this
  have hsplit : chars.flatten =
      (chars.take tp.flen.toNat).flatten ++ (chars.drop tp.flen.toNat).flatten := by
    rw [← List.flatten_append, List.take_append_drop]
  have hle : (chars.take tp.flen.toNat).flatten.length ≤ chars.flatten.length := by
    have hl := congrArg List.length hsplit
    rw [List.length_append] at hl
    omega
  have htk : chars.flatten.take (chars.take tp.flen.toNat).flatten.length =
      (chars.take tp.flen.toNat).flatten := by
    conv_lhs => rw [hsplit]
    rw [List.take_append_of_le_length (le_refl _), List.take_length]
  simp only [hflen, if_true, hcs, hbl, min_eq_left hle, htk]
  simp

/-- With a positive target length `n` and any other charset the loop, run on an
offsets array of one entry, writes the first `min(n, |s|)` bytes of the row. -/
theorem castStringAsStringLoop_single_row_bytes (tp : tipb.FieldType) (s : List Nat)
    (hs : s.length < 2 ^ 64) (hflen : tp.flen > 0)
    (hc : tp.charset ≠ "utf8" ∧ tp.charset ≠ "utf8mb4") :
    castStringAsStringLoop tp (ColumnString.ofRows [s]) [0] =
      some ⟨s.take (min tp.flen.toNat s.length) ++ [0],
        [min tp.flen.toNat s.length + 1]⟩ := by
  rw [castStringAsStringLoop_single_row tp _ hs]
  have hcs : (tp.charset == "utf8" || tp.charset == "utf8mb4") = false := by
    simp [hc.1, hc.2]
  simp only [hflen, if_true, hcs, Bool.false_eq_true, if_false]
  simp

/-- The identity test of `createWrapper` leaves strings out: called on String
and String it goes on to the string conversion. -/
theorem createWrapper_string (m : DataTypeMethods) (return_nullable : Bool)
    (hs : m.isString IDataType.DataTypeString = true) :
    createWrapper m return_nullable IDataType.DataTypeString IDataType.DataTypeString =
      Except.ok (WrapperType.convertToString FromDataType.DataTypeString return_nullable) := by
  simp [createWrapper, hs, createWrapperFor]

/-- C29: the one-row column "éa" (three bytes, two characters) cast from String
to String with target length 1 comes back whole, for charset utf8 and for
charset binary, where the claim expects "é" and the first byte: the dispatch
answers equal types with the identity wrapper.  The identity test of
`createWrapper` would have let strings through to the string conversion, whose
loop cuts the row to "é" for utf8 and to one byte for binary. -/
theorem tidbCast_string_not_truncated :
    sampleUtf8Column.size = 1 ∧
      sampleUtf8Column.row 0 = [0xC3, 0xA9, 0x61] ∧
      sampleUtf8Type.flen = 1 ∧
      prepare sampleMethods IDataType.DataTypeString IDataType.DataTypeString =
        Except.ok WrapperType.identity ∧
      tidbCast sampleMethods sampleOtherBodies IDataType.DataTypeString
          IDataType.DataTypeString false sampleUtf8Type sampleUtf8Block [0] 1 =
        Except.ok (some [some (CastColumn.string sampleUtf8Column),
          some (CastColumn.string sampleUtf8Column)]) ∧
      tidbCast sampleMethods sampleOtherBodies IDataType.DataTypeString
          IDataType.DataTypeString false sampleBinaryType sampleUtf8Block [0] 1 =
        Except.ok (some [some (CastColumn.string sampleUtf8Column),
          some (CastColumn.string sampleUtf8Column)]) ∧
      createWrapper sampleMethods false IDataType.DataTypeString IDataType.DataTypeString =
        Except.ok (WrapperType.convertToString FromDataType.DataTypeString false) ∧
      castStringAsStringLoop sampleUtf8Type sampleUtf8Column [0] =
        some ⟨[0xC3, 0xA9, 0], [3]⟩ ∧
      castStringAsStringLoop sampleBinaryType sampleUtf8Column [0] =
        some ⟨[0xC3, 0], [2]⟩ :=
  ⟨by decide, by decide, rfl, rfl, rfl, rfl, rfl, by decide, by decide⟩

/-! ## Empty results, failing decodes, trimming -/

/-- C31, as stated, fails: on a receiver whose descriptor has no output column a
decoded batch has no column either; after one packet with one chunk the queue
holds that batch and one call is still open, and `nextBlock` returns the empty
block although the queue was not empty and the live-call count is 1. -/
theorem nextBlock_empty_batch_counterexample :
    sampleNoColumns.inited = true ∧
      (sampleNoColumns.decodePacket schemaCodecs samplePacketOne).2.block_buffer =
        [Block.empty] ∧
      (sampleNoColumns.decodePacket schemaCodecs samplePacketOne).2.live_connections = 1 ∧
      (sampleNoColumns.decodePacket schemaCodecs samplePacketOne).2.meet_error = false ∧
      (sampleNoColumns.decodePacket schemaCodecs samplePacketOne).2.nextBlock.1 =
        NextBlockResult.returned Block.empty := by
  decide

/-- C31, amended: when `nextBlock` returns an empty block without throwing,
either the queue was empty and the live-call count zero, or the block at the
front of the queue was itself empty; so when no queued batch is empty, an empty
result means that the queue was empty and the live-call count zero. -/
theorem nextBlock_empty_result (r : ExchangeReceiver)
    (h : r.nextBlock.1 = NextBlockResult.returned Block.empty) :
    r.init.meet_error = false ∧
      ((r.init.block_buffer = [] ∧ r.init.live_connections = 0) ∨
        ∃ rest, r.init.block_buffer = Block.empty :: rest) ∧
      ((∀ b ∈ r.block_buffer, b ≠ Block.empty) →
        r.init.block_buffer = [] ∧ r.init.live_connections = 0) := by
  rw [nextBlock_eq] at h
  have he : r.init.meet_error = false := by
    by_contra hcon
    have ht : r.init.meet_error = true := by simpa using hcon
    simp [ExchangeReceiver.waitPredicate, ht] at h
  have hmain : (r.init.block_buffer = [] ∧ r.init.live_connections = 0) ∨
      ∃ rest, r.init.block_buffer = Block.empty :: rest := by
    cases hq : r.init.block_buffer with
    | nil =>
      left
      refine ⟨rfl, ?_⟩
      by_contra hl
      simp [ExchangeReceiver.waitPredicate, hq, he, hl] at h
    | cons blk rest =>
      right
      simp [ExchangeReceiver.waitPredicate, hq, he] at h
      exact ⟨rest, by rw [h]⟩
  refine ⟨he, hmain, ?_⟩
  intro hne
  rcases hmain with hempty | ⟨rest, hrest⟩
  · exact hempty
  · exfalso
    rw [init_block_buffer] at hrest
    exact hne Block.empty (by rw [hrest]; exact List.mem_cons_self _ _) rfl

/-- C31, amended, on a receiver whose senders closed without data: the empty
result comes with an empty queue and a live-call count of zero. -/
theorem nextBlock_empty_result_witness :
    sampleFinished.nextBlock.1 = NextBlockResult.returned Block.empty ∧
      sampleFinished.init.block_buffer = [] ∧ sampleFinished.init.live_connections = 0 :=
  ⟨rfl, (nextBlock_empty_result sampleFinished rfl).2.2 (by decide)⟩

/-- C32: when `decodePacket` throws, the exception is "Unsupported encode type",
the tag is an unsupported one, and the state is exactly the one before the
call: the queue is unchanged and no signal has been sent. -/
theorem decodePacket_atomic_on_error (codecs : ChunkCodecs) (r : ExchangeReceiver)
    (p : mpp.MPPDataPacket) (e : Exception)
    (h : (r.decodePacket codecs p).1 = Except.error e) :
    e = ⟨"Unsupported encode type", ErrorCode.LOGICAL_ERROR⟩ ∧
      supportedEncodeType p.data.encode_type = false ∧
      (r.decodePacket codecs p).2 = r ∧
      (r.decodePacket codecs p).2.block_buffer = r.block_buffer ∧
      (r.decodePacket codecs p).2.signals = r.signals := by
  by_cases hs : supportedEncodeType p.data.encode_type = true
  · rw [decodePacket_supported codecs r p hs] at h
    cases h
  · have hs2 : supportedEncodeType p.data.encode_type = false := by simpa using hs
    have hu := decodePacket_unsupported codecs r p hs2
    by_cases hc : p.data.chunks = []
    · rw [hu] at h
      simp [hc] at h
    · have h2 : r.decodePacket codecs p =
          (Except.error ⟨"Unsupported encode type", ErrorCode.LOGICAL_ERROR⟩, r) := by
        rw [hu]
        simp [hc]
      rw [h2] at h ⊢
      have he : (⟨"Unsupported encode type", ErrorCode.LOGICAL_ERROR⟩ : Exception) = e :=
        Except.error.inj h
      exact ⟨he.symm, hs2, rfl, rfl, rfl⟩

/-- C32 on a packet with an unsupported tag and one chunk, sent to a receiver
with two queued batches: the call throws and the receiver is as before. -/
theorem decodePacket_atomic_on_error_witness :
    (sampleDrained.decodePacket sampleCodecs samplePacketBad).1 =
        Except.error ⟨"Unsupported encode type", ErrorCode.LOGICAL_ERROR⟩ ∧
      (sampleDrained.decodePacket sampleCodecs samplePacketBad).2 = sampleDrained ∧
      (sampleDrained.decodePacket sampleCodecs samplePacketBad).2.signals =
        sampleDrained.signals :=
  ⟨rfl,
    (decodePacket_atomic_on_error sampleCodecs sampleDrained samplePacketBad
      ⟨"Unsupported encode type", ErrorCode.LOGICAL_ERROR⟩ rfl).2.2.1,
    (decodePacket_atomic_on_error sampleCodecs sampleDrained samplePacketBad
      ⟨"Unsupported encode type", ErrorCode.LOGICAL_ERROR⟩ rfl).2.2.2.2⟩

/-- Whatever the input and the set of spaces, the body of `trim` returns the
empty view: `end` starts from `ret.size`, which is 0, so the second loop does
not run and `start >= end` holds. -/
theorem trimBody_empty (spaces : List Nat) (value : StringRef) :
    trimBody spaces value = ⟨[], 0⟩ := by
  simp [trimBody, trimEndLoop]

/-- C33: for the input "a", which has no whitespace at either end, both `trim`
functions return the empty view where the claim expects "a"; for " a " they
return the empty view as well, where removing the whitespace gives "a". -/
theorem trim_returns_empty :
    sampleWord.toBytes = [97] ∧
      trimReference sampleWord.toBytes = [97] ∧
      TiDBConvertToInteger.trim sampleWord = ⟨[], 0⟩ ∧
      TiDBConvertToFloat.trim sampleWord = ⟨[], 0⟩ ∧
      (TiDBConvertToInteger.trim sampleWord).toBytes = [] ∧
      trimReference samplePadded.toBytes = [97] ∧
      TiDBConvertToInteger.trim samplePadded = ⟨[], 0⟩ ∧
      TiDBConvertToFloat.trim samplePadded = ⟨[], 0⟩ := by
  decide

end DB
